import Mathlib

/-!
Verification development for the liveline frame-composition engine.

The definitions below are shallow embeddings of the drawing orchestrators in
the repository (`drawFrame`, `drawMultiFrame`, `drawCandleFrame`, `drawBars`
and their helper formulas).  Pixel and progress arithmetic is modelled over ℚ
(the code uses IEEE doubles; every claim checked over ℚ/ℝ is about the exact
arithmetic of the formulas).  External drawing primitives (grid, line, dots,
crosshair rendering, particles, ...) are opaque to the core: each call the
core makes to one of them is recorded as an event in a trace, and the values
returned by external calls (the realized line points, Math.random draws) are
oracle parameters of the trace functions.  The shake-amplitude decay, which
the claim about it fixes to exact real arithmetic, is modelled over ℝ.
-/

namespace Liveline

/-- Smoothstep reveal ramp, `revealRamp(start, end)` in the source (closed
over `reveal`):  clamp `(reveal - start)/(stop - start)` to [0,1], then apply
`t*t*(3 - 2*t)`.  Generic over a linear ordered field so it can be used both
in the executable ℚ trace model and in the ℝ continuity statements. -/
def revealRamp {α : Type*} [LinearOrderedField α] (reveal start stop : α) : α :=
  let t := max 0 (min 1 ((reveal - start) / (stop - start)))
  t * t * (3 - 2 * t)

/-- Shared three-branch crosshair proximity fade formula (spec 4.3):
`distToLive < 5 → 0`, `distToLive >= fadeStart → scrubAmount`, otherwise
`(distToLive - 5)/(fadeStart - 5) * scrubAmount`. -/
def crosshairFadeOpacity {α : Type*} [LinearOrderedField α]
    (distToLive fadeStart scrubAmount : α) : α :=
  if distToLive < 5 then 0
  else if fadeStart ≤ distToLive then scrubAmount
  else (distToLive - 5) / (fadeStart - 5) * scrubAmount

/-- Use site 1: the live dot's scrub-dimming in `drawFrame` (source lines
177-181), with `liveX = lastPt[0]` and `fadeStart = min(80, chartW * 0.3)`. -/
def dotScrubOpacity {α : Type*} [LinearOrderedField α]
    (liveX hoverX scrubAmount chartW : α) : α :=
  let distToLive := liveX - hoverX
  let fadeStart := min 80 (chartW * (3 / 10))
  if distToLive < 5 then 0
  else if fadeStart ≤ distToLive then scrubAmount
  else (distToLive - 5) / (fadeStart - 5) * scrubAmount

/-- Use site 2: the single-series crosshair opacity in `drawFrame` (source
lines 259-263). -/
def crosshairScrubOpacity {α : Type*} [LinearOrderedField α]
    (liveX hoverX scrubAmount chartW : α) : α :=
  let distToLive := liveX - hoverX
  let fadeStart := min 80 (chartW * (3 / 10))
  if distToLive < 5 then 0
  else if fadeStart ≤ distToLive then scrubAmount
  else (distToLive - 5) / (fadeStart - 5) * scrubAmount

/-- Use site 3: the multi-series crosshair opacity in `drawMultiFrame`
(source lines 445-449), with `liveX = maxLiveDotX`, the rightmost visible
series' live x. -/
def multiCrosshairScrubOpacity {α : Type*} [LinearOrderedField α]
    (liveX hoverX scrubAmount chartW : α) : α :=
  let distToLive := liveX - hoverX
  let fadeStart := min 80 (chartW * (3 / 10))
  if distToLive < 5 then 0
  else if fadeStart ≤ distToLive then scrubAmount
  else (distToLive - 5) / (fadeStart - 5) * scrubAmount

lemma crosshairFadeOpacity_eq_clamp (fs s : ℝ) (hfs : 5 < fs) :
    (fun d : ℝ => crosshairFadeOpacity d fs s) =
      fun d : ℝ => max 0 (min 1 ((d - 5) / (fs - 5))) * s := by
  funext d
  unfold crosshairFadeOpacity
  rcases lt_or_le d 5 with hd | hd
  · rw [if_pos hd]
    have hr : (d - 5) / (fs - 5) < 0 :=
      div_neg_of_neg_of_pos (by linarith) (by linarith)
    rw [min_eq_right (le_of_lt (lt_of_lt_of_le hr zero_le_one)),
        max_eq_left (le_of_lt hr), zero_mul]
  · rw [if_neg (not_lt.mpr hd)]
    rcases le_or_lt fs d with hfd | hfd
    · rw [if_pos hfd]
      have hr : (1 : ℝ) ≤ (d - 5) / (fs - 5) :=
        (one_le_div (by linarith)).mpr (by linarith)
      rw [min_eq_left hr, max_eq_right zero_le_one, one_mul]
    · rw [if_neg (not_le.mpr hfd)]
      have h0 : (0 : ℝ) ≤ (d - 5) / (fs - 5) :=
        div_nonneg (by linarith) (by linarith)
      have h1 : (d - 5) / (fs - 5) ≤ 1 :=
        (div_le_one (by linarith)).mpr (by linarith)
      rw [min_eq_right h1, max_eq_right h0]

lemma crosshairFadeOpacity_continuous (fs s : ℝ) (hfs : 5 < fs) :
    Continuous fun d : ℝ => crosshairFadeOpacity d fs s := by
  rw [crosshairFadeOpacity_eq_clamp fs s hfs]
  exact (continuous_const.max (continuous_const.min
    ((continuous_id.sub continuous_const).div_const _))).mul continuous_const

/-- C1: the crosshair proximity fade is the same function at all three use
sites (the live dot's scrub-dimming, the single-series crosshair, and the
multi-series crosshair), each equal to the shared three-branch formula with
`distToLive = liveX - hoverX` and `fadeStart = min(80, chartW*0.3)`; and for
every `fadeStart > 5` and every `scrubAmount` the formula is continuous in
`distToLive`, with value 0 at `distToLive = 5` and value `scrubAmount` at
`distToLive = fadeStart`. -/
theorem crosshair_fade_shared_continuous :
    (∀ liveX hoverX scrubAmount chartW : ℝ,
        dotScrubOpacity liveX hoverX scrubAmount chartW =
          crosshairScrubOpacity liveX hoverX scrubAmount chartW ∧
        crosshairScrubOpacity liveX hoverX scrubAmount chartW =
          multiCrosshairScrubOpacity liveX hoverX scrubAmount chartW ∧
        crosshairScrubOpacity liveX hoverX scrubAmount chartW =
          crosshairFadeOpacity (liveX - hoverX) (min 80 (chartW * (3 / 10)))
            scrubAmount) ∧
    (∀ fadeStart scrubAmount : ℝ, 5 < fadeStart →
        Continuous (fun d : ℝ => crosshairFadeOpacity d fadeStart scrubAmount) ∧
        crosshairFadeOpacity (5 : ℝ) fadeStart scrubAmount = 0 ∧
        crosshairFadeOpacity fadeStart fadeStart scrubAmount = scrubAmount) := by
  constructor
  · intro liveX hoverX scrubAmount chartW
    exact ⟨rfl, rfl, rfl⟩
  · intro fadeStart scrubAmount hfs
    refine ⟨crosshairFadeOpacity_continuous fadeStart scrubAmount hfs, ?_, ?_⟩
    · unfold crosshairFadeOpacity
      rw [if_neg (lt_irrefl 5), if_neg (not_le.mpr hfs), sub_self, zero_div,
        zero_mul]
    · unfold crosshairFadeOpacity
      rw [if_neg (not_lt.mpr (le_of_lt hfs)), if_pos (le_refl fadeStart)]

/-- Witness for C1 at `fadeStart = 80`, `scrubAmount = 1`. -/
theorem crosshair_fade_shared_continuous_witness :
    5 < (80 : ℝ) ∧ crosshairFadeOpacity (5 : ℝ) 80 1 = 0 ∧
      crosshairFadeOpacity (80 : ℝ) 80 1 = 1 :=
  ⟨by norm_num, (crosshair_fade_shared_continuous.2 80 1 (by norm_num)).2.1,
    (crosshair_fade_shared_continuous.2 80 1 (by norm_num)).2.2⟩

lemma smoothstepPoly_mono {a b : ℝ} (ha : 0 ≤ a) (hab : a ≤ b) (hb : b ≤ 1) :
    a * a * (3 - 2 * a) ≤ b * b * (3 - 2 * b) := by
  have ha1 : a ≤ 1 := le_trans hab hb
  have hb0 : 0 ≤ b := le_trans ha hab
  have h1 : 0 ≤ (b - a) * (a * (1 - b)) :=
    mul_nonneg (by linarith) (mul_nonneg ha (by linarith))
  have h2 : 0 ≤ (b - a) * (b * (1 - a)) :=
    mul_nonneg (by linarith) (mul_nonneg hb0 (by linarith))
  have h3 : 0 ≤ (b - a) * (a * (1 - a)) :=
    mul_nonneg (by linarith) (mul_nonneg ha (by linarith))
  have h4 : 0 ≤ (b - a) * (b * (1 - b)) :=
    mul_nonneg (by linarith) (mul_nonneg hb0 (by linarith))
  nlinarith [h1, h2, h3, h4]

lemma revealRamp_clamp_mem (s e p : ℝ) :
    0 ≤ max 0 (min 1 ((p - s) / (e - s))) ∧
      max 0 (min 1 ((p - s) / (e - s))) ≤ 1 :=
  ⟨le_max_left 0 _, max_le zero_le_one (min_le_left _ _)⟩

lemma revealRamp_continuous (s e : ℝ) :
    Continuous fun p : ℝ => revealRamp p s e := by
  have hc : Continuous fun p : ℝ => max 0 (min 1 ((p - s) / (e - s))) :=
    continuous_const.max (continuous_const.min
      ((continuous_id.sub continuous_const).div_const _))
  unfold revealRamp
  exact (hc.mul hc).mul (continuous_const.sub (continuous_const.mul hc))

/-- C5: for `start < end`, `rampSmoothstep` (the source's `revealRamp`) is
monotonically non-decreasing in progress, returns 0 at or before `start`,
returns 1 at or after `end`, and is continuous at `start` and at `end`. -/
theorem rampSmoothstep_props :
    ∀ s e : ℝ, s < e →
      Monotone (fun p : ℝ => revealRamp p s e) ∧
      (∀ p : ℝ, p ≤ s → revealRamp p s e = 0) ∧
      (∀ p : ℝ, e ≤ p → revealRamp p s e = 1) ∧
      ContinuousAt (fun p : ℝ => revealRamp p s e) s ∧
      ContinuousAt (fun p : ℝ => revealRamp p s e) e := by
  intro s e hse
  have hpos : (0 : ℝ) < e - s := by linarith
  refine ⟨?_, ?_, ?_, (revealRamp_continuous s e).continuousAt,
    (revealRamp_continuous s e).continuousAt⟩
  · intro p q hpq
    have hmono : max 0 (min 1 ((p - s) / (e - s))) ≤
        max 0 (min 1 ((q - s) / (e - s))) := by
      have : (p - s) / (e - s) ≤ (q - s) / (e - s) :=
        (div_le_div_right hpos).mpr (by linarith)
      exact max_le_max (le_refl 0) (min_le_min (le_refl 1) this)
    have h1 := revealRamp_clamp_mem s e p
    have h2 := revealRamp_clamp_mem s e q
    simpa [revealRamp] using smoothstepPoly_mono h1.1 hmono h2.2
  · intro p hp
    have hr : (p - s) / (e - s) ≤ 0 :=
      div_nonpos_of_nonpos_of_nonneg (by linarith) (le_of_lt hpos)
    simp only [revealRamp]
    rw [min_eq_right (le_trans hr zero_le_one), max_eq_left hr]
    ring
  · intro p hp
    have hr : (1 : ℝ) ≤ (p - s) / (e - s) :=
      (one_le_div hpos).mpr (by linarith)
    simp only [revealRamp]
    rw [min_eq_left hr, max_eq_right zero_le_one]
    norm_num

/-- Witness for C5 at `start = 0`, `end = 1`. -/
theorem rampSmoothstep_props_witness :
    (0 : ℝ) < 1 ∧ revealRamp (-1 : ℝ) 0 1 = 0 ∧ revealRamp (2 : ℝ) 0 1 = 1 :=
  ⟨by norm_num, (rampSmoothstep_props 0 1 (by norm_num)).2.1 (-1) (by norm_num),
    (rampSmoothstep_props 0 1 (by norm_num)).2.2.1 2 (by norm_num)⟩

/-- A candlestick data point.  The source field `open` is a reserved word in
Lean, so it is modelled by the field `opn`; the other fields keep their
source names (`time, open, high, low, close`). -/
structure CandlePoint where
  time : ℚ
  opn : ℚ
  high : ℚ
  low : ℚ
  close : ℚ
deriving DecidableEq

/-- OHLC collapse of a candle toward its close by factor `ohlcScale`, as in
`drawCandleFrame` (source lines 636-643): the identity when
`ohlcScale >= 0.99`, otherwise open/high/low are linearly interpolated toward
the close while close and time are kept. -/
def collapseC (ohlcScale : ℚ) (c : CandlePoint) : CandlePoint :=
  if 99 / 100 ≤ ohlcScale then c
  else
    ⟨c.time,
      c.close + (c.opn - c.close) * ohlcScale,
      c.close + (c.high - c.close) * ohlcScale,
      c.close + (c.low - c.close) * ohlcScale,
      c.close⟩

/-- Candle ordering invariant, `low <= min(open,close) <= max(open,close) <= high`. -/
def candleOrdered (c : CandlePoint) : Prop :=
  c.low ≤ min c.opn c.close ∧ max c.opn c.close ≤ c.high

/-- C10: the OHLC-collapse transformation preserves the candle ordering
invariant for every `ohlcScale` in [0,1], and leaves close and time
unchanged. -/
theorem collapseC_preserves_order (s : ℚ) (c : CandlePoint)
    (hs0 : 0 ≤ s) (hs1 : s ≤ 1) (hc : candleOrdered c) :
    candleOrdered (collapseC s c) ∧ (collapseC s c).close = c.close ∧
      (collapseC s c).time = c.time := by
  obtain ⟨hlow, hhigh⟩ := hc
  obtain ⟨hlo, hlc⟩ := le_min_iff.mp hlow
  obtain ⟨hoh, hch⟩ := max_le_iff.mp hhigh
  unfold collapseC
  split_ifs with h
  · exact ⟨⟨hlow, hhigh⟩, rfl, rfl⟩
  · refine ⟨⟨le_min ?_ ?_, max_le ?_ ?_⟩, rfl, rfl⟩
    · simp only
      nlinarith [mul_le_mul_of_nonneg_right
        (show c.low - c.close ≤ c.opn - c.close by linarith) hs0]
    · simp only
      nlinarith [mul_le_mul_of_nonneg_right
        (show c.low - c.close ≤ 0 by linarith) hs0]
    · simp only
      nlinarith [mul_le_mul_of_nonneg_right
        (show c.opn - c.close ≤ c.high - c.close by linarith) hs0]
    · simp only
      nlinarith [mul_le_mul_of_nonneg_right
        (show (0 : ℚ) ≤ c.high - c.close by linarith) hs0]

/-- Witness for C10 at `ohlcScale = 1/2` on the candle (0, 1, 2, 0, 1). -/
theorem collapseC_preserves_order_witness :
    (0 : ℚ) ≤ 1 / 2 ∧ (1 : ℚ) / 2 ≤ 1 ∧ candleOrdered ⟨0, 1, 2, 0, 1⟩ ∧
      (candleOrdered (collapseC (1 / 2) ⟨0, 1, 2, 0, 1⟩) ∧
        (collapseC (1 / 2) ⟨0, 1, 2, 0, 1⟩).close = (1 : ℚ) ∧
        (collapseC (1 / 2) ⟨0, 1, 2, 0, 1⟩).time = (0 : ℚ)) :=
  ⟨by norm_num, by norm_num, by constructor <;> norm_num,
    collapseC_preserves_order (1 / 2) ⟨0, 1, 2, 0, 1⟩ (by norm_num)
      (by norm_num) (by constructor <;> norm_num)⟩

/-- Line presence `revealLine` of the candle composer (source lines 535-537):
`(1-reveal)` in full line mode (`lineModeProg >= 0.99`), else the cube. -/
def revealLineOf (lineModeProg reveal : ℚ) : ℚ :=
  if 99 / 100 ≤ lineModeProg then 1 - reveal
  else (1 - reveal) * (1 - reveal) * (1 - reveal)

/-- Line presence `lp = max(lineModeProg, revealLine)` (source line 538). -/
def lpOf (lineModeProg reveal : ℚ) : ℚ :=
  max lineModeProg (revealLineOf lineModeProg reveal)

/-- Color blend of the candle composer (source line 542):
`lp > 0.001 ? lineModeProg / lp : 1`. -/
def colorBlendOf (lineModeProg reveal : ℚ) : ℚ :=
  if 1 / 1000 < lpOf lineModeProg reveal then
    lineModeProg / lpOf lineModeProg reveal
  else 1

/-- C4 counterexample: the claimed inputs do not exist — for every
`lineModeProg` in [0,1] and `reveal` in [0,1] past the `lp > 0.001` gate, the
unclamped ratio `lineModeProg / lp` never exceeds 1, because
`lp = max(lineModeProg, revealLine) >= lineModeProg`. -/
theorem colorBlend_overshoot_refuted :
    ¬ ∃ lm r : ℚ, 0 ≤ lm ∧ lm ≤ 1 ∧ 0 ≤ r ∧ r ≤ 1 ∧
      1 / 1000 < lpOf lm r ∧ 1 < lm / lpOf lm r := by
  rintro ⟨lm, r, hlm0, -, -, -, hgate, hgt⟩
  have hle : lm / lpOf lm r ≤ 1 :=
    div_le_one_of_le (le_max_left _ _) (by linarith)
  linarith

/-- C4 amended: past the `lp > 0.001` gate the unclamped
`colorBlend = lineModeProg / lp` always lies in [0,1]; no defensive clamp is
needed. -/
theorem colorBlend_in_unit_interval (lm r : ℚ)
    (hlm0 : 0 ≤ lm) (hlm1 : lm ≤ 1) (hr0 : 0 ≤ r) (hr1 : r ≤ 1)
    (hgate : 1 / 1000 < lpOf lm r) :
    0 ≤ colorBlendOf lm r ∧ colorBlendOf lm r ≤ 1 := by
  unfold colorBlendOf
  rw [if_pos hgate]
  exact ⟨div_nonneg hlm0 (by linarith),
    div_le_one_of_le (le_max_left _ _) (by linarith)⟩

/-- Witness for C4 amended at `lineModeProg = 1/2`, `reveal = 0`. -/
theorem colorBlend_in_unit_interval_witness :
    ((0 : ℚ) ≤ 1 / 2 ∧ (1 : ℚ) / 2 ≤ 1 ∧ (0 : ℚ) ≤ 0 ∧ (0 : ℚ) ≤ 1 ∧
      1 / 1000 < lpOf (1 / 2) 0) ∧
      (0 ≤ colorBlendOf (1 / 2) 0 ∧ colorBlendOf (1 / 2) 0 ≤ 1) :=
  ⟨⟨by norm_num, by norm_num, le_refl 0, by norm_num,
      lt_of_lt_of_le (by norm_num) (le_max_left _ _)⟩,
    colorBlend_in_unit_interval (1 / 2) 0 (by norm_num) (by norm_num)
      (le_refl 0) (by norm_num)
      (lt_of_lt_of_le (by norm_num) (le_max_left _ _))⟩

/-- Source constant `SHAKE_DECAY_RATE = 0.002`. -/
noncomputable def SHAKE_DECAY_RATE : ℝ := 1 / 500

/-- Source constant `SHAKE_MIN_AMPLITUDE = 0.2`. -/
noncomputable def SHAKE_MIN_AMPLITUDE : ℝ := 1 / 5

/-- One per-tick shake decay step (source lines 93-98), over exact real
arithmetic: `amplitude *= 0.002 ^ (dt / 1000)`, then snap to exactly 0 when
the result is below 0.2. -/
noncomputable def shakeStep (amplitude dt : ℝ) : ℝ :=
  let next := amplitude * SHAKE_DECAY_RATE ^ (dt / 1000)
  if next < SHAKE_MIN_AMPLITUDE then 0 else next

/-- Applying the decay step once per tick over a sequence of tick deltas. -/
noncomputable def shakeDecaySeq (amplitude : ℝ) (dts : List ℝ) : ℝ :=
  List.foldl shakeStep amplitude dts

lemma shake_rate_pos : (0 : ℝ) < SHAKE_DECAY_RATE := by
  unfold SHAKE_DECAY_RATE; norm_num

lemma shake_rpow_pos (x : ℝ) : 0 < SHAKE_DECAY_RATE ^ x :=
  Real.rpow_pos_of_pos shake_rate_pos x

lemma shake_rpow_lt_one {x : ℝ} (hx : 0 < x) : SHAKE_DECAY_RATE ^ x < 1 :=
  Real.rpow_lt_one (le_of_lt shake_rate_pos)
    (by unfold SHAKE_DECAY_RATE; norm_num) hx

lemma shakeDecaySeq_closed (l : List ℝ) (hne : l ≠ [])
    (hpos : ∀ d ∈ l, 0 < d) : ∀ a : ℝ,
    shakeDecaySeq a l =
      if a * SHAKE_DECAY_RATE ^ (l.sum / 1000) < SHAKE_MIN_AMPLITUDE then 0
      else a * SHAKE_DECAY_RATE ^ (l.sum / 1000) := by
  induction l with
  | nil => exact absurd rfl hne
  | cons d t ih =>
    intro a
    have hd : 0 < d := hpos d (List.mem_cons_self d t)
    have hpt : ∀ x ∈ t, 0 < x := fun x hx => hpos x (List.mem_cons_of_mem d hx)
    rcases eq_or_ne t [] with ht | ht
    · subst ht
      show shakeStep a d = _
      simp only [shakeStep, List.sum_cons, List.sum_nil, add_zero]
    · have hsum : (d :: t).sum = d + t.sum := List.sum_cons
      have hsplit : SHAKE_DECAY_RATE ^ ((d + t.sum) / 1000) =
          SHAKE_DECAY_RATE ^ (d / 1000) * SHAKE_DECAY_RATE ^ (t.sum / 1000) := by
        rw [add_div, Real.rpow_add shake_rate_pos]
      have hstep : shakeDecaySeq a (d :: t) = shakeDecaySeq (shakeStep a d) t :=
        rfl
      rw [hstep, ih ht hpt (shakeStep a d), hsum, hsplit]
      have hv0 : 0 < SHAKE_DECAY_RATE ^ (t.sum / 1000) := shake_rpow_pos _
      have hts : 0 < t.sum := List.sum_pos t hpt ht
      have hv1 : SHAKE_DECAY_RATE ^ (t.sum / 1000) < 1 :=
        shake_rpow_lt_one (div_pos hts (by norm_num))
      by_cases hlt : a * SHAKE_DECAY_RATE ^ (d / 1000) < SHAKE_MIN_AMPLITUDE
      · have hz : shakeStep a d = 0 := by simp [shakeStep, hlt]
        rw [hz, zero_mul]
        have hmin : (0 : ℝ) < SHAKE_MIN_AMPLITUDE := by
          unfold SHAKE_MIN_AMPLITUDE; norm_num
        rw [if_pos hmin]
        have htotal : a * (SHAKE_DECAY_RATE ^ (d / 1000) *
            SHAKE_DECAY_RATE ^ (t.sum / 1000)) < SHAKE_MIN_AMPLITUDE := by
          rw [← mul_assoc]
          nlinarith [mul_lt_mul_of_pos_right hlt hv0]
        rw [if_pos htotal]
      · have hz : shakeStep a d = a * SHAKE_DECAY_RATE ^ (d / 1000) := by
          simp [shakeStep, hlt]
        rw [hz, mul_assoc]
  -- positivity of `t.sum / 1000` above relies on `t` being a nonempty list
  -- of positive deltas

/-- C2: shake decay is time-proportional.  Over exact real arithmetic, for
every initial amplitude and every two finite sequences of positive tick
deltas with equal sums, folding the per-tick decay step over each sequence
yields the same final amplitude. -/
theorem shake_decay_time_proportional (a : ℝ) (l1 l2 : List ℝ)
    (h1 : ∀ d ∈ l1, 0 < d) (h2 : ∀ d ∈ l2, 0 < d)
    (hsum : l1.sum = l2.sum) :
    shakeDecaySeq a l1 = shakeDecaySeq a l2 := by
  rcases eq_or_ne l1 [] with he1 | he1
  · subst he1
    rcases eq_or_ne l2 [] with he2 | he2
    · subst he2; rfl
    · exfalso
      have : 0 < l2.sum := List.sum_pos l2 h2 he2
      rw [← hsum] at this
      simp at this
  · rcases eq_or_ne l2 [] with he2 | he2
    · exfalso
      subst he2
      have : 0 < l1.sum := List.sum_pos l1 h1 he1
      rw [hsum] at this
      simp at this
    · rw [shakeDecaySeq_closed l1 he1 h1 a, shakeDecaySeq_closed l2 he2 h2 a,
        hsum]

/-- Witness for C2: amplitude 10, tick sequences [1000] and [400, 600]. -/
theorem shake_decay_time_proportional_witness :
    (∀ d ∈ ([1000] : List ℝ), 0 < d) ∧
      (∀ d ∈ ([400, 600] : List ℝ), 0 < d) ∧
      ([1000] : List ℝ).sum = ([400, 600] : List ℝ).sum ∧
      shakeDecaySeq 10 [1000] = shakeDecaySeq 10 [400, 600] :=
  ⟨by intro d hd; simp at hd; subst hd; norm_num,
    by intro d hd; simp at hd; rcases hd with h | h <;> subst h <;> norm_num,
    by simp; norm_num,
    shake_decay_time_proportional 10 [1000] [400, 600]
      (by intro d hd; simp at hd; subst hd; norm_num)
      (by intro d hd; simp at hd; rcases hd with h | h <;> subst h <;> norm_num)
      (by simp; norm_num)⟩

/-- A visible point in pixel space: the realized (x, y) pairs returned by
the external `drawLine` call. -/
abbrev Pt := ℚ × ℚ

/-- A bar data point `(time, value)`. -/
structure BarPoint where
  time : ℚ
  value : ℚ
deriving DecidableEq

/-- `BarLayout` from `bars.ts`: anchor bottom y, maximum bar height, maximum
bar value. -/
structure BarLayout where
  bottom : ℚ
  maxHeight : ℚ
  maxValue : ℚ
deriving DecidableEq

/-- Plot-area padding, `layout.pad`. -/
structure Padding where
  left : ℚ
  right : ℚ
  top : ℚ
  bottom : ℚ

/-- `ChartLayout`: canvas size, padding, plot size, visible time window edges
and the two coordinate mapping functions. -/
structure Layout where
  w : ℚ
  h : ℚ
  pad : Padding
  chartW : ℚ
  chartH : ℚ
  leftEdge : ℚ
  rightEdge : ℚ
  toX : ℚ → ℚ
  toY : ℚ → ℚ

/-- One call emitted by a composer to the drawing surface or to an external
drawing primitive.  Each constructor records the arguments computed by the
core that the claims talk about (alphas, opacities, geometry). -/
inductive DrawCall where
  | save : DrawCall
  | restore : DrawCall
  | translate (x y : ℚ) : DrawCall
  | clipRect (x y w h : ℚ) : DrawCall
  | referenceLine (alpha : ℚ) : DrawCall
  | grid (alpha : ℚ) : DrawCall
  | orderbook (alpha : ℚ) : DrawCall
  | line (alpha : ℚ) (scrubX : Option ℚ) (colorBlend : Option ℚ) : DrawCall
  | timeAxis (alpha : ℚ) : DrawCall
  | dot (x y alpha scrub : ℚ) (pulse : Bool) : DrawCall
  | arrows (alpha : ℚ) : DrawCall
  | particles : DrawCall
  | edgeFade : DrawCall
  | crosshair (opacity : ℚ) : DrawCall
  | multiLine (si : ℕ) (alpha : ℚ) : DrawCall
  | simpleDot (x y alpha : ℚ) : DrawCall
  | multiDot (x y alpha : ℚ) : DrawCall
  | labelText (s : String) : DrawCall
  | multiCrosshair (opacity : ℚ) : DrawCall
  | closePrice (alpha : ℚ) : DrawCall
  | accentDash (alpha : ℚ) : DrawCall
  | candlesticks (alpha : ℚ) (candles : List CandlePoint) (width : ℚ) : DrawCall
  | lineModeCrosshair : DrawCall
  | candleCrosshair : DrawCall
  | emptyOverlay (alpha : ℚ) : DrawCall
  | barRect (x y w h : ℚ) (rounded : Bool) (alpha : ℚ) : DrawCall
  | barLabel (v : ℚ) : DrawCall
deriving DecidableEq

/-- Effective canvas alpha after the idiom
`if (a < 1) ctx.globalAlpha = a` with ambient alpha 1. -/
def effAlpha (a : ℚ) : ℚ := if a < 1 then a else 1

def isGrid : DrawCall → Bool
  | .grid _ => true
  | _ => false

def isDot : DrawCall → Bool
  | .dot _ _ _ _ _ => true
  | _ => false

def isLine : DrawCall → Bool
  | .line _ _ _ => true
  | _ => false

def isCandlesticks : DrawCall → Bool
  | .candlesticks _ _ _ => true
  | _ => false

def isCandleCrosshair : DrawCall → Bool
  | .candleCrosshair => true
  | _ => false

def isBarRect : DrawCall → Bool
  | .barRect _ _ _ _ _ _ => true
  | _ => false

def isSave : DrawCall → Bool
  | .save => true
  | _ => false

def isRestore : DrawCall → Bool
  | .restore => true
  | _ => false

/-- Options handed to `drawBars` (`bars.ts`), restricted to the fields that
influence the emitted drawing calls.  Colors are opaque. -/
structure BarDrawArgs where
  bars : List BarPoint
  barWidthSecs : ℚ
  scrubX : Option ℚ
  scrubAmount : ℚ
  revealProgress : ℚ
  showLabels : Bool

/-- The bar-rectangle event `drawBars` emits for one bar, or `none` when the
bar is skipped (source lines 282-323): skip non-positive values, bars fully
outside the visible x-range, and bars whose revealed height is below half a
pixel.  The recorded alpha reflects the hard left/right scrub split. -/
def barEventFor (layout : Layout) (bl : BarLayout) (a : BarDrawArgs)
    (baseAlpha barPxWidth halfBar cornerR : ℚ) (b : BarPoint) :
    Option DrawCall :=
  if b.value ≤ 0 then none
  else
    let centerX := layout.toX (b.time + a.barWidthSecs / 2)
    let x := centerX - halfBar
    if x + barPxWidth < layout.pad.left ∨ layout.pad.left + layout.chartW < x
    then none
    else
      let rawHeight := b.value / bl.maxValue * bl.maxHeight
      let barH := rawHeight * a.revealProgress
      if barH < 1 / 2 then none
      else
        let barY := bl.bottom - barH
        let alpha :=
          match a.scrubX with
          | some sx =>
            if 1 / 20 < a.scrubAmount then
              if sx < centerX then baseAlpha * (1 - a.scrubAmount * (3 / 5))
              else baseAlpha
            else baseAlpha
          | none => baseAlpha
        some (DrawCall.barRect x barY barPxWidth barH
          (0 < cornerR ∧ cornerR * 2 < barH) alpha)

/-- The label event `drawBars` emits for one bar in the optional label pass
(source lines 335-343), or `none` when skipped. -/
def labelEventFor (layout : Layout) (bl : BarLayout) (a : BarDrawArgs)
    (fontSize : ℚ) (b : BarPoint) : Option DrawCall :=
  if b.value ≤ 0 then none
  else
    let centerX := layout.toX (b.time + a.barWidthSecs / 2)
    if centerX < layout.pad.left ∨ layout.pad.left + layout.chartW < centerX
    then none
    else
      let barH := b.value / bl.maxValue * bl.maxHeight * a.revealProgress
      if barH < fontSize + 6 then none
      else some (DrawCall.barLabel b.value)

/-- Trace of `drawBars` (`bars.ts`): empty when there are no bars or the max
value is non-positive; otherwise one optional rectangle per bar followed by
the optional label pass (gated on `showLabels` and `revealProgress > 0.5`). -/
def drawBarsTrace (layout : Layout) (bl : BarLayout) (a : BarDrawArgs)
    (baseAlpha : ℚ) : List DrawCall :=
  if a.bars = [] ∨ bl.maxValue ≤ 0 then []
  else
    let pxPerSec := layout.chartW / (layout.rightEdge - layout.leftEdge)
    let barPxWidth := max 1 (a.barWidthSecs * pxPerSec - 2)
    let halfBar := barPxWidth / 2
    let cornerR : ℚ := if 6 < barPxWidth then 3 / 2 else 0
    a.bars.filterMap (barEventFor layout bl a baseAlpha barPxWidth halfBar
      cornerR) ++
    (if a.showLabels ∧ 1 / 2 < a.revealProgress then
      let fontSize : ℚ := if 500 < layout.w then 9 else 8
      [DrawCall.save] ++ a.bars.filterMap (labelEventFor layout bl a fontSize)
        ++ [DrawCall.restore]
    else [])

lemma barEventFor_some_shape (layout : Layout) (bl : BarLayout)
    (a : BarDrawArgs) (baseAlpha barPxWidth halfBar cornerR : ℚ)
    (b : BarPoint) (c : DrawCall)
    (h : barEventFor layout bl a baseAlpha barPxWidth halfBar cornerR b =
      some c) :
    ∃ x r al, c = DrawCall.barRect x
      (bl.bottom - b.value / bl.maxValue * bl.maxHeight * a.revealProgress)
      barPxWidth (b.value / bl.maxValue * bl.maxHeight * a.revealProgress)
      r al := by
  simp only [barEventFor] at h
  split at h
  · exact Option.noConfusion h
  · split at h
    · exact Option.noConfusion h
    · split at h
      · exact Option.noConfusion h
      · exact ⟨_, _, _, (Option.some.inj h).symm⟩

lemma labelEventFor_some_shape (layout : Layout) (bl : BarLayout)
    (a : BarDrawArgs) (fontSize : ℚ) (b : BarPoint) (c : DrawCall)
    (h : labelEventFor layout bl a fontSize b = some c) :
    ∃ v, c = DrawCall.barLabel v := by
  simp only [labelEventFor] at h
  split at h
  · exact Option.noConfusion h
  · split at h
    · exact Option.noConfusion h
    · split at h
      · exact Option.noConfusion h
      · exact ⟨_, (Option.some.inj h).symm⟩

lemma barEventFor_none_of_reveal_zero (layout : Layout) (bl : BarLayout)
    (a : BarDrawArgs) (baseAlpha barPxWidth halfBar cornerR : ℚ)
    (b : BarPoint) (hrp : a.revealProgress = 0) :
    barEventFor layout bl a baseAlpha barPxWidth halfBar cornerR b = none := by
  simp only [barEventFor, hrp, mul_zero]
  norm_num

/-- C9: every bar rectangle `drawBars` emits has pixel height
`(value / maxValue) * maxHeight * revealProgress` for some bar in the input
(linear in `revealProgress`), with its top edge at `bottom - height` (so the
shape spans `bottom - height .. bottom`); and at `revealProgress = 0` no bar
rectangle is emitted at all. -/
theorem bar_height_linear (layout : Layout) (bl : BarLayout)
    (a : BarDrawArgs) (baseAlpha : ℚ) :
    (∀ x y w h r al,
        DrawCall.barRect x y w h r al ∈ drawBarsTrace layout bl a baseAlpha →
        ∃ b ∈ a.bars,
          h = b.value / bl.maxValue * bl.maxHeight * a.revealProgress ∧
          y = bl.bottom - h) ∧
    (a.revealProgress = 0 →
      ∀ x y w h r al,
        DrawCall.barRect x y w h r al ∉ drawBarsTrace layout bl a baseAlpha) := by
  constructor
  · intro x y w h r al hmem
    unfold drawBarsTrace at hmem
    by_cases h0 : a.bars = [] ∨ bl.maxValue ≤ 0
    · rw [if_pos h0] at hmem
      exact absurd hmem (List.not_mem_nil _)
    · rw [if_neg h0] at hmem
      simp only [List.mem_append, List.mem_filterMap] at hmem
      rcases hmem with ⟨b, hb, heq⟩ | hlab
      · obtain ⟨x', r', al', hc⟩ := barEventFor_some_shape _ _ _ _ _ _ _ _ _ heq
        simp only [DrawCall.barRect.injEq] at hc
        exact ⟨b, hb, hc.2.2.2.1, by rw [hc.2.1, hc.2.2.2.1]⟩
      · by_cases hg : a.showLabels ∧ 1 / 2 < a.revealProgress
        · rw [if_pos hg] at hlab
          simp only [List.cons_append, List.mem_cons, List.mem_append,
            List.mem_filterMap, List.mem_singleton, List.not_mem_nil,
            false_or, or_false] at hlab
          rcases hlab with hsv | ⟨b, hb, heq2⟩ | hrs
          · exact DrawCall.noConfusion hsv
          · obtain ⟨v, hc⟩ := labelEventFor_some_shape _ _ _ _ _ _ heq2
            exact DrawCall.noConfusion hc
          · exact DrawCall.noConfusion hrs
        · rw [if_neg hg] at hlab
          exact absurd hlab (List.not_mem_nil _)
  · intro hrp x y w h r al hmem
    unfold drawBarsTrace at hmem
    by_cases h0 : a.bars = [] ∨ bl.maxValue ≤ 0
    · rw [if_pos h0] at hmem
      exact absurd hmem (List.not_mem_nil _)
    · rw [if_neg h0] at hmem
      simp only [List.mem_append, List.mem_filterMap] at hmem
      rcases hmem with ⟨b, hb, heq⟩ | hlab
      · rw [barEventFor_none_of_reveal_zero _ _ _ _ _ _ _ _ hrp] at heq
        exact absurd heq (by simp)
      · rw [if_neg (by rw [hrp]; norm_num)] at hlab
        exact absurd hlab (List.not_mem_nil _)

/-- Sample layout used by concrete witnesses: 400x300 canvas, no padding,
100 px plot width over the time window [0, 100], identity coordinate maps. -/
def sampleLayout : Layout :=
  ⟨400, 300, ⟨0, 0, 0, 0⟩, 100, 270, 0, 100, fun t => t, fun v => v⟩

def sampleBarLayout : BarLayout := ⟨200, 50, 100⟩

def sampleBarArgs : BarDrawArgs := ⟨[⟨10, 50⟩], 10, none, 0, 1 / 2, false⟩

/-- Witness for C9: at the sample inputs a bar rectangle of height
`(50/100)*50*(1/2) = 25/2` anchored at `200 - 25/2` is emitted. -/
theorem bar_height_linear_witness :
    (DrawCall.barRect 11 (375 / 2) 8 (25 / 2) true 1 ∈
      drawBarsTrace sampleLayout sampleBarLayout sampleBarArgs 1) ∧
    (∃ b ∈ sampleBarArgs.bars,
      (25 : ℚ) / 2 = b.value / sampleBarLayout.maxValue *
        sampleBarLayout.maxHeight * sampleBarArgs.revealProgress ∧
      (375 : ℚ) / 2 = sampleBarLayout.bottom - 25 / 2) := by
  have hmem : DrawCall.barRect 11 (375 / 2) 8 (25 / 2) true 1 ∈
      drawBarsTrace sampleLayout sampleBarLayout sampleBarArgs 1 := by
    norm_num [drawBarsTrace, barEventFor, sampleLayout, sampleBarLayout,
      sampleBarArgs, max_def]
  exact ⟨hmem,
    (bar_height_linear sampleLayout sampleBarLayout sampleBarArgs 1).1
      11 (375 / 2) 8 (25 / 2) true 1 hmem⟩

/-- Bar placement mode (`'default' | 'overlay'` in the source;
`defaultMode` models the string `'default'`). -/
inductive BarMode where
  | defaultMode : BarMode
  | overlay : BarMode
deriving DecidableEq

/-- Bundled bar-chart configuration.  `some cfg` models the conjunctive
truthiness check `opts.bars && opts.barLayout && opts.barWidthSecs &&
opts.barFillColor` guarding every bar block; the fill color itself is opaque
and not recorded. -/
structure BarsCfg where
  bars : List BarPoint
  widthSecs : ℚ
  mode : BarMode
  layout : BarLayout
  showLabels : Bool

/-- Bars in overlay mode (drawFrame step 2c, drawCandleFrame step 1b; the
two blocks are identical): alpha ramp `revealRamp(0.1, 0.6)`, bar reveal
ramp `revealRamp(0.1, 0.8)`, scrub x forwarded only when
`scrubAmount > 0.05`. -/
def barsOverlaySeg (layout : Layout) (cfg : Option BarsCfg)
    (reveal scrubAmount : ℚ) (hoverX : Option ℚ) : List DrawCall :=
  match cfg with
  | some c =>
    if c.mode = BarMode.overlay then
      let barAlpha := if reveal < 1 then revealRamp reveal (1 / 10) (3 / 5)
        else 1
      if 1 / 100 < barAlpha then
        [DrawCall.save] ++
        drawBarsTrace layout c.layout
          ⟨c.bars, c.widthSecs,
            (if 1 / 20 < scrubAmount then hoverX else none), scrubAmount,
            (if reveal < 1 then revealRamp reveal (1 / 10) (4 / 5) else 1),
            c.showLabels⟩ (effAlpha barAlpha) ++
        [DrawCall.restore]
      else []
    else []
  | none => []

/-- Bars in default mode (drawFrame step 6b, drawCandleFrame step 4b; the
two blocks are identical): clipped to a bottom strip, alpha ramp
`revealRamp(0.15, 0.7)`. -/
def barsDefaultSeg (layout : Layout) (cfg : Option BarsCfg)
    (reveal scrubAmount : ℚ) (hoverX : Option ℚ) : List DrawCall :=
  match cfg with
  | some c =>
    if c.mode = BarMode.defaultMode then
      let barAlpha := if reveal < 1 then revealRamp reveal (15 / 100) (7 / 10)
        else 1
      if 1 / 100 < barAlpha then
        [DrawCall.save,
          DrawCall.clipRect layout.pad.left
            (c.layout.bottom - c.layout.maxHeight) layout.chartW
            c.layout.maxHeight] ++
        drawBarsTrace layout c.layout
          ⟨c.bars, c.widthSecs,
            (if 1 / 20 < scrubAmount then hoverX else none), scrubAmount,
            (if reveal < 1 then revealRamp reveal (1 / 10) (4 / 5) else 1),
            c.showLabels⟩ (effAlpha barAlpha) ++
        [DrawCall.restore]
      else []
    else []
  | none => []

/-- Options of the single-series composer `drawFrame`, restricted to the
fields that influence the emitted drawing calls.  Booleans of the form
`hasX` model presence of the corresponding nullable inputs. -/
structure FrameOpts where
  referenceLine : Bool
  showGrid : Bool
  showMomentum : Bool
  showPulse : Bool
  hasOrderbook : Bool
  hasParticles : Bool
  hoverX : Option ℚ
  hoverValue : Option ℚ
  hoverTime : Option ℚ
  scrubAmount : ℚ
  shakeAmplitude : Option ℚ
  chartReveal : ℚ
  pauseProgress : ℚ
  barsCfg : Option BarsCfg

/-- The shake x (or y) offset computed at the top of `drawFrame` (source
lines 85-92): `(rand - 0.5) * 2 * amplitude` when a shake state with
amplitude above the 0.2 threshold is present, else 0. -/
def shakeXOf (sa : Option ℚ) (rand : ℚ) : ℚ :=
  match sa with
  | some amp => if 1 / 5 < amp then (rand - 1 / 2) * 2 * amp else 0
  | none => 0

/-- The shake offset block at the top of `drawFrame` (source lines 85-92):
`ctx.save()` and `ctx.translate(shakeX, shakeY)` only when a shake state
with amplitude above the 0.2 threshold is present. -/
def shakeStartSeg (sa : Option ℚ) (rand1 rand2 : ℚ) : List DrawCall :=
  match sa with
  | some amp =>
    if 1 / 5 < amp then
      [DrawCall.save, DrawCall.translate (shakeXOf sa rand1)
        (shakeXOf sa rand2)]
    else []
  | none => []

/-- The single-series crosshair stage of `drawFrame` (source lines 256-276):
needs all three hover fields and a nonempty realized line; opacity from the
shared proximity fade with the live x of the last realized point. -/
def singleChSeg (layout : Layout)
    (hoverX hoverValue hoverTime : Option ℚ) (scrubAmount : ℚ)
    (linePts : List Pt) : List DrawCall :=
  match hoverX, hoverValue, hoverTime with
  | some hx, some _, some _ =>
    if linePts ≠ [] then
      let lastPt := linePts.getLastD (0, 0)
      let scrubOpacity :=
        crosshairScrubOpacity lastPt.1 hx scrubAmount layout.chartW
      if 1 / 100 < scrubOpacity then [DrawCall.crosshair scrubOpacity]
      else []
    else []
  | _, _, _ => []

/-- Trace of the single-series composer `drawFrame` (source lines 77-282).
`rand1, rand2` are the two `Math.random()` draws, `linePts` the realized
pixel points returned by the external `drawLine` call.  The shake-amplitude
decay mutates state without emitting drawing calls and is modelled
separately by `shakeStep`. -/
def drawFrameTrace (layout : Layout) (o : FrameOpts) (rand1 rand2 : ℚ)
    (linePts : List Pt) : List DrawCall :=
  let sx := shakeXOf o.shakeAmplitude rand1
  let sy := shakeXOf o.shakeAmplitude rand2
  let shakeStart := shakeStartSeg o.shakeAmplitude rand1 rand2
  let reveal := o.chartReveal
  let pause := o.pauseProgress
  let refSeg :=
    if o.referenceLine ∧ 1 / 100 < reveal then
      [DrawCall.save, DrawCall.referenceLine (effAlpha reveal),
        DrawCall.restore]
    else []
  let gridSeg :=
    if o.showGrid then
      let gridAlpha := if reveal < 1 then revealRamp reveal (15 / 100) (7 / 10)
        else 1
      if 1 / 100 < gridAlpha then
        [DrawCall.save, DrawCall.grid (effAlpha gridAlpha), DrawCall.restore]
      else []
    else []
  let obSeg :=
    if o.hasOrderbook ∧ 1 / 100 < reveal then
      [DrawCall.save, DrawCall.orderbook (effAlpha reveal), DrawCall.restore]
    else []
  let barsOver := barsOverlaySeg layout o.barsCfg reveal o.scrubAmount o.hoverX
  let scrubX := if 1 / 20 < o.scrubAmount then o.hoverX else none
  let lineSeg := [DrawCall.line 1 scrubX none]
  let axisSeg :=
    let timeAlpha := if reveal < 1 then revealRamp reveal (15 / 100) (7 / 10)
      else 1
    if 1 / 100 < timeAlpha then
      [DrawCall.save, DrawCall.timeAxis (effAlpha timeAlpha), DrawCall.restore]
    else []
  let liveSeg :=
    if linePts ≠ [] then
      let lastPt := linePts.getLastD (0, 0)
      let dotScrub :=
        match o.hoverX with
        | some hx =>
          if 0 < o.scrubAmount then
            dotScrubOpacity lastPt.1 hx o.scrubAmount layout.chartW
          else o.scrubAmount
        | none => o.scrubAmount
      let dotAlpha := if reveal < 3 / 10 then 0 else (reveal - 3 / 10) / (7 / 10)
      let showPulse := o.showPulse ∧ 3 / 5 < reveal ∧ pause < 1 / 2
      let dotSeg :=
        if 1 / 100 < dotAlpha then
          [DrawCall.save,
            DrawCall.dot lastPt.1 lastPt.2 (effAlpha dotAlpha) dotScrub
              showPulse, DrawCall.restore]
        else []
      let arrowsSeg :=
        if o.showMomentum then
          let arrowReveal := if reveal < 1 then revealRamp reveal (3 / 5) 1
            else 1
          let arrowAlpha := arrowReveal * (1 - pause)
          if 1 / 100 < arrowAlpha then
            [DrawCall.save, DrawCall.arrows (effAlpha arrowAlpha),
              DrawCall.restore]
          else []
        else []
      let particleSeg :=
        if o.hasParticles ∧ 9 / 10 < reveal then [DrawCall.particles] else []
      dotSeg ++ arrowsSeg ++ particleSeg
    else []
  let barsDef := barsDefaultSeg layout o.barsCfg reveal o.scrubAmount o.hoverX
  let fadeSeg := [DrawCall.save, DrawCall.edgeFade, DrawCall.restore]
  let chSeg := singleChSeg layout o.hoverX o.hoverValue o.hoverTime
    o.scrubAmount linePts
  let shakeEnd :=
    if o.shakeAmplitude.isSome ∧ (sx ≠ 0 ∨ sy ≠ 0) then [DrawCall.restore]
    else []
  shakeStart ++ refSeg ++ gridSeg ++ obSeg ++ barsOver ++ lineSeg ++ axisSeg
    ++ liveSeg ++ barsDef ++ fadeSeg ++ chSeg ++ shakeEnd

lemma revealRamp_zero {α : Type*} [LinearOrderedField α] {s e : α}
    (hs : 0 < s) (hse : s < e) : revealRamp 0 s e = 0 := by
  simp only [revealRamp]
  have hr : (0 - s) / (e - s) < 0 :=
    div_neg_of_neg_of_pos (by linarith) (by linarith)
  rw [min_eq_right (le_trans (le_of_lt hr) zero_le_one),
    max_eq_left (le_of_lt hr)]
  ring

lemma revealRamp_zero_a : revealRamp (0 : ℚ) (3 / 20) (7 / 10) = 0 :=
  revealRamp_zero (by norm_num) (by norm_num)

lemma revealRamp_zero_b : revealRamp (0 : ℚ) (1 / 10) (3 / 5) = 0 :=
  revealRamp_zero (by norm_num) (by norm_num)

lemma revealRamp_zero_c : revealRamp (0 : ℚ) (1 / 10) (4 / 5) = 0 :=
  revealRamp_zero (by norm_num) (by norm_num)

lemma revealRamp_zero_d : revealRamp (0 : ℚ) (3 / 5) 1 = 0 :=
  revealRamp_zero (by norm_num) (by norm_num)

lemma revealRamp_zero_e : revealRamp (0 : ℚ) (1 / 4) (3 / 5) = 0 :=
  revealRamp_zero (by norm_num) (by norm_num)

lemma revealRamp_zero_f : revealRamp (0 : ℚ) (2 / 5) (4 / 5) = 0 :=
  revealRamp_zero (by norm_num) (by norm_num)

lemma barsOverlaySeg_reveal_zero (layout : Layout) (cfg : Option BarsCfg)
    (scrubAmount : ℚ) (hoverX : Option ℚ) :
    barsOverlaySeg layout cfg 0 scrubAmount hoverX = [] := by
  cases cfg with
  | none => rfl
  | some c =>
    norm_num [barsOverlaySeg, revealRamp_zero_b, ite_self]

lemma barsDefaultSeg_reveal_zero (layout : Layout) (cfg : Option BarsCfg)
    (scrubAmount : ℚ) (hoverX : Option ℚ) :
    barsDefaultSeg layout cfg 0 scrubAmount hoverX = [] := by
  cases cfg with
  | none => rfl
  | some c =>
    norm_num [barsDefaultSeg, revealRamp_zero_a, ite_self]

/-- A `drawFrame` input with an armed shake state (amplitude 10) and all
optional layers off, used as the C8 failing input. -/
def frameOptsShake : FrameOpts :=
  ⟨false, false, false, false, false, false, none, none, none, 0, some 10, 0,
    0, none⟩

/-- C8 (code bug): at the failing input, amplitude 10 (above the 0.2
threshold) with both random draws exactly 0.5, `drawFrame` performs the
shake `ctx.save()` + `ctx.translate(0, 0)` but skips the final
`ctx.restore()` because the restore guard tests `shakeX !== 0 || shakeY !==
0` instead of whether a save was performed: the trace has 2 saves and only 1
restore, so the context's save/restore depth is not unchanged. -/
theorem shake_save_restore_bug :
    ((drawFrameTrace sampleLayout frameOptsShake (1 / 2) (1 / 2) []).filter
        isSave).length = 2 ∧
    ((drawFrameTrace sampleLayout frameOptsShake (1 / 2) (1 / 2) []).filter
        isRestore).length = 1 := by
  constructor <;>
    norm_num [drawFrameTrace, frameOptsShake, shakeStartSeg, singleChSeg,
      shakeXOf, sampleLayout, barsOverlaySeg, barsDefaultSeg,
      revealRamp_zero_a, effAlpha, isSave, isRestore, List.filter]

/-- One entry of the multi-series composer: per-series visibility alpha
(`alpha ?? 1` when absent) and optional endpoint label.  The series' points,
smooth value and palette are only forwarded to the external `drawLine`. -/
structure SeriesEntry where
  alpha : Option ℚ
  label : Option String

/-- Options of the multi-series composer `drawMultiFrame`, restricted to the
fields that influence the emitted drawing calls.  `hoverEntries` keeps only
the hovered values (the core only tests its nonemptiness). -/
structure MultiOpts where
  series : List SeriesEntry
  showGrid : Bool
  showPulse : Bool
  referenceLine : Bool
  hoverX : Option ℚ
  hoverTime : Option ℚ
  hoverEntries : List ℚ
  scrubAmount : ℚ
  chartReveal : ℚ
  pauseProgress : ℚ

/-- An element of the `allPts` accumulator of `drawMultiFrame`: realized
points, series visibility alpha, optional label. -/
structure AllEntry where
  pts : List Pt
  alpha : ℚ
  label : Option String
deriving DecidableEq

/-- Secondary-series fade factor (source line 365):
`(si > 0 && reveal < 1) ? min(1, reveal * 2) : 1`. -/
def secondaryFadeOf (reveal : ℚ) (si : ℕ) : ℚ :=
  if 0 < si ∧ reveal < 1 then min 1 (reveal * 2) else 1

/-- The series loop of `drawMultiFrame` (source lines 362-380): returns the
emitted drawing calls and the `allPts` accumulator.  A series whose combined
alpha `secondaryFade * seriesAlpha` is below 0.01 is skipped entirely;
otherwise its line is drawn at the combined alpha and, when the external
`drawLine` returned points, the series joins `allPts`. -/
def seriesLoop (reveal scrubAmount : ℚ) (scrubX : Option ℚ)
    (ptsOf : ℕ → List Pt) :
    ℕ → List SeriesEntry → List DrawCall × List AllEntry
  | _, [] => ([], [])
  | si, s :: rest =>
    let seriesAlpha := s.alpha.getD 1
    let combinedAlpha := secondaryFadeOf reveal si * seriesAlpha
    let next := seriesLoop reveal scrubAmount scrubX ptsOf (si + 1) rest
    if combinedAlpha < 1 / 100 then next
    else
      let pts := ptsOf si
      let seg := [DrawCall.save,
        DrawCall.multiLine si (effAlpha combinedAlpha), DrawCall.restore]
      if pts ≠ [] then (seg ++ next.1, ⟨pts, seriesAlpha, s.label⟩ :: next.2)
      else (seg ++ next.1, next.2)

/-- The endpoint dot/label loop of `drawMultiFrame` (source lines 400-422):
entries below 0.01 alpha are skipped; the pulsing variant is used when the
pulse is on and the series alpha exceeds 0.5; the recorded alpha is
`dotAlpha * entry.alpha`. -/
def dotsLoop (dotAlpha : ℚ) (showPulse : Bool) : List AllEntry → List DrawCall
  | [] => []
  | e :: rest =>
    (if e.alpha < 1 / 100 then []
     else
       let lastPt := e.pts.getLastD (0, 0)
       [DrawCall.save] ++
       (if showPulse ∧ 1 / 2 < e.alpha then
          [DrawCall.multiDot lastPt.1 lastPt.2 (dotAlpha * e.alpha)]
        else [DrawCall.simpleDot lastPt.1 lastPt.2 (dotAlpha * e.alpha)]) ++
       (match e.label with
        | some s => [DrawCall.labelText s]
        | none => []) ++
       [DrawCall.restore]) ++ dotsLoop dotAlpha showPulse rest

/-- The rightmost live-dot x among visible entries (source lines 438-443). -/
def maxLiveDotX : List AllEntry → ℚ → ℚ
  | [], acc => acc
  | e :: rest, acc =>
    if e.alpha < 1 / 100 then maxLiveDotX rest acc
    else
      let lastX := (e.pts.getLastD (0, 0)).1
      maxLiveDotX rest (if acc < lastX then lastX else acc)

/-- The multi-series crosshair stage (source lines 435-463): needs all of
hover x, hover time, nonempty hover entries, nonempty `allPts` and
`scrubAmount > 0.01`; the proximity anchor is the rightmost visible live
dot x. -/
def multiChSeg (layout : Layout) (o : MultiOpts) (entries : List AllEntry) :
    List DrawCall :=
  match o.hoverX, o.hoverTime with
  | some hx, some _ =>
    if o.hoverEntries ≠ [] ∧ entries ≠ [] ∧ 1 / 100 < o.scrubAmount then
      let mx := maxLiveDotX entries 0
      let scrubOpacity :=
        multiCrosshairScrubOpacity mx hx o.scrubAmount layout.chartW
      if 1 / 100 < scrubOpacity then [DrawCall.multiCrosshair scrubOpacity]
      else []
    else []
  | _, _ => []

/-- Trace of the multi-series composer `drawMultiFrame` (source lines
324-464).  `ptsOf si` is the oracle for the points the external `drawLine`
returns for series `si`. -/
def drawMultiFrameTrace (layout : Layout) (o : MultiOpts)
    (ptsOf : ℕ → List Pt) : List DrawCall :=
  let reveal := o.chartReveal
  let refSeg :=
    if o.referenceLine ∧ 1 / 100 < reveal then
      [DrawCall.save, DrawCall.referenceLine (effAlpha reveal),
        DrawCall.restore]
    else []
  let gridSeg :=
    if o.showGrid then
      let gridAlpha := if reveal < 1 then revealRamp reveal (15 / 100) (7 / 10)
        else 1
      if 1 / 100 < gridAlpha then
        [DrawCall.save, DrawCall.grid (effAlpha gridAlpha), DrawCall.restore]
      else []
    else []
  let scrubX := if 1 / 20 < o.scrubAmount then o.hoverX else none
  let loopRes := seriesLoop reveal o.scrubAmount scrubX ptsOf 0 o.series
  let axisSeg :=
    let timeAlpha := if reveal < 1 then revealRamp reveal (15 / 100) (7 / 10)
      else 1
    if 1 / 100 < timeAlpha then
      [DrawCall.save, DrawCall.timeAxis (effAlpha timeAlpha), DrawCall.restore]
    else []
  let dotsSeg :=
    if 3 / 10 < reveal ∧ loopRes.2 ≠ [] then
      dotsLoop ((reveal - 3 / 10) / (7 / 10))
        (o.showPulse ∧ 3 / 5 < reveal ∧ o.pauseProgress < 1 / 2) loopRes.2
    else []
  let fadeSeg := [DrawCall.save, DrawCall.edgeFade, DrawCall.restore]
  let chSeg := multiChSeg layout o loopRes.2
  refSeg ++ gridSeg ++ loopRes.1 ++ axisSeg ++ dotsSeg ++ fadeSeg ++ chSeg

/-- Projection of a trace onto its series-line events. -/
def multiLineEvents (t : List DrawCall) : List (ℕ × ℚ) :=
  t.filterMap fun c =>
    match c with
    | .multiLine si a => some (si, a)
    | _ => none

lemma multiLineEvents_append (l1 l2 : List DrawCall) :
    multiLineEvents (l1 ++ l2) = multiLineEvents l1 ++ multiLineEvents l2 :=
  List.filterMap_append l1 l2 _

lemma mLE_nil : multiLineEvents [] = [] := rfl

lemma mLE_ref (x : ℚ) :
    multiLineEvents [DrawCall.save, DrawCall.referenceLine x,
      DrawCall.restore] = [] := rfl

lemma mLE_grid (x : ℚ) :
    multiLineEvents [DrawCall.save, DrawCall.grid x, DrawCall.restore] = [] :=
  rfl

lemma mLE_axis (x : ℚ) :
    multiLineEvents [DrawCall.save, DrawCall.timeAxis x, DrawCall.restore] =
      [] := rfl

lemma mLE_fade :
    multiLineEvents [DrawCall.save, DrawCall.edgeFade, DrawCall.restore] =
      [] := rfl

lemma mLE_mcross (x : ℚ) :
    multiLineEvents [DrawCall.multiCrosshair x] = [] := rfl

lemma mLE_ite (b : Prop) (inst : Decidable b) (t : List DrawCall)
    (h : multiLineEvents t = []) :
    multiLineEvents (if b then t else []) = [] := by
  split_ifs with hb
  · exact h
  · rfl

lemma mLE_multiChSeg (layout : Layout) (o : MultiOpts)
    (entries : List AllEntry) :
    multiLineEvents (multiChSeg layout o entries) = [] := by
  unfold multiChSeg
  rcases o.hoverX with _ | hx <;> rcases o.hoverTime with _ | ht
  · rfl
  · rfl
  · rfl
  · exact mLE_ite _ _ _ (mLE_ite _ _ _ (mLE_mcross _))

lemma effAlpha_of_le_one {c : ℚ} (h : c ≤ 1) : effAlpha c = c := by
  unfold effAlpha
  split_ifs with h1
  · rfl
  · have : c = 1 := le_antisymm h (not_lt.mp h1)
    rw [this]

lemma secondaryFadeOf_le_one (reveal : ℚ) (si : ℕ) :
    secondaryFadeOf reveal si ≤ 1 := by
  unfold secondaryFadeOf
  split_ifs
  · exact min_le_left 1 _
  · exact le_refl 1

lemma multiLineEvents_dotsLoop (dotAlpha : ℚ) (sp : Bool) :
    ∀ l : List AllEntry, multiLineEvents (dotsLoop dotAlpha sp l) = [] := by
  intro l
  induction l with
  | nil => rfl
  | cons e rest ih =>
    simp only [dotsLoop, multiLineEvents_append, ih, List.append_nil]
    split_ifs with h1 h2 <;> cases hl : e.label <;>
      simp [multiLineEvents]

lemma seriesLoop_events (reveal scrubAmount : ℚ) (scrubX : Option ℚ)
    (ptsOf : ℕ → List Pt) :
    ∀ (l : List SeriesEntry) (si : ℕ),
      (∀ s ∈ l, 0 ≤ s.alpha.getD 1 ∧ s.alpha.getD 1 ≤ 1) →
      multiLineEvents (seriesLoop reveal scrubAmount scrubX ptsOf si l).1 =
        (List.enumFrom si l).filterMap (fun p =>
          if secondaryFadeOf reveal p.1 * p.2.alpha.getD 1 < 1 / 100 then none
          else some (p.1, secondaryFadeOf reveal p.1 * p.2.alpha.getD 1)) := by
  intro l
  induction l with
  | nil => intro si halpha; rfl
  | cons s rest ih =>
    intro si halpha
    have hs := halpha s (List.mem_cons_self s rest)
    have hrest : ∀ x ∈ rest, 0 ≤ x.alpha.getD 1 ∧ x.alpha.getD 1 ≤ 1 :=
      fun x hx => halpha x (List.mem_cons_of_mem s hx)
    have hcomb_le : secondaryFadeOf reveal si * s.alpha.getD 1 ≤ 1 :=
      mul_le_one (secondaryFadeOf_le_one reveal si) hs.1 hs.2
    simp only [seriesLoop, List.enumFrom_cons, List.filterMap_cons]
    by_cases hc : secondaryFadeOf reveal si * s.alpha.getD 1 < 1 / 100
    · rw [if_pos hc, if_pos hc]
      exact ih (si + 1) hrest
    · rw [if_neg hc, if_neg hc]
      by_cases hp : ptsOf si ≠ []
      · rw [if_pos hp]
        simp only [multiLineEvents_append, ih (si + 1) hrest]
        simp [multiLineEvents, effAlpha_of_le_one hcomb_le]
      · rw [if_neg hp]
        simp only [multiLineEvents_append, ih (si + 1) hrest]
        simp [multiLineEvents, effAlpha_of_le_one hcomb_le]

/-- C7: in `drawMultiFrame` the series-line events are exactly one event per
series with combined alpha `secondaryFade * seriesAlpha`, where the fade is
`min(1, reveal*2)` for every series after the first when `reveal < 1` and 1
otherwise, and a series is skipped exactly when its combined alpha is below
0.01; at `reveal = 0.5` the secondary multiplier is 1, at `reveal = 0.1` it
is `0.2`. -/
theorem multi_secondary_fade (layout : Layout) (o : MultiOpts)
    (ptsOf : ℕ → List Pt)
    (halpha : ∀ s ∈ o.series, 0 ≤ s.alpha.getD 1 ∧ s.alpha.getD 1 ≤ 1) :
    multiLineEvents (drawMultiFrameTrace layout o ptsOf) =
      (List.enumFrom 0 o.series).filterMap (fun p =>
        if secondaryFadeOf o.chartReveal p.1 * p.2.alpha.getD 1 < 1 / 100
        then none
        else some (p.1, secondaryFadeOf o.chartReveal p.1 * p.2.alpha.getD 1)) ∧
    secondaryFadeOf (1 / 2) 1 = 1 ∧ secondaryFadeOf (1 / 10) 1 = 1 / 5 := by
  refine ⟨?_, ?_, ?_⟩
  · simp only [drawMultiFrameTrace, multiLineEvents_append]
    rw [seriesLoop_events o.chartReveal o.scrubAmount _ ptsOf o.series 0 halpha]
    simp only [mLE_multiChSeg, mLE_fade, List.append_nil]
    rw [mLE_ite _ _ _ (mLE_ref _), mLE_ite _ _ _ (mLE_ite _ _ _ (mLE_grid _)),
      mLE_ite _ _ _ (mLE_axis _), mLE_ite _ _ _ (multiLineEvents_dotsLoop _ _ _)]
    simp only [List.nil_append, List.append_nil]
  · norm_num [secondaryFadeOf, min_def]
  · norm_num [secondaryFadeOf, min_def]

/-- Concrete multi-series options: two visible series with alphas 1 and 1/2
at `reveal = 1/2`. -/
def multiOptsW : MultiOpts :=
  ⟨[⟨some 1, none⟩, ⟨some (1 / 2), none⟩], false, false, false, none, none,
    [], 0, 1 / 2, 0⟩

/-- Witness for C7: at `reveal = 1/2` the two series are drawn at combined
alphas `1 * 1 = 1` and `min(1, 1) * 1/2 = 1/2`. -/
theorem multi_secondary_fade_witness :
    (∀ s ∈ multiOptsW.series, 0 ≤ s.alpha.getD 1 ∧ s.alpha.getD 1 ≤ 1) ∧
    multiLineEvents (drawMultiFrameTrace sampleLayout multiOptsW
      (fun _ => [(1, 1)])) = [(0, 1), (1, 1 / 2)] := by
  have h : ∀ s ∈ multiOptsW.series, 0 ≤ s.alpha.getD 1 ∧ s.alpha.getD 1 ≤ 1 := by
    intro s hs
    simp only [multiOptsW, List.mem_cons, List.not_mem_nil, or_false] at hs
    rcases hs with h | h <;> subst h <;> norm_num
  refine ⟨h, ?_⟩
  rw [(multi_secondary_fade sampleLayout multiOptsW (fun _ => [(1, 1)]) h).1]
  norm_num [multiOptsW, secondaryFadeOf, List.enumFrom, min_def,
    List.filterMap_cons]

/-- `noCalls p t` holds when no event of trace `t` satisfies `p`. -/
def noCalls (p : DrawCall → Bool) (t : List DrawCall) : Bool :=
  t.all fun c => !(p c)

lemma noCalls_eq_true (p : DrawCall → Bool) (t : List DrawCall) :
    noCalls p t = true ↔ ∀ c ∈ t, p c = false := by
  simp [noCalls, List.all_eq_true]

lemma noCalls_append (p : DrawCall → Bool) (l1 l2 : List DrawCall) :
    noCalls p (l1 ++ l2) = (noCalls p l1 && noCalls p l2) := by
  simp [noCalls]

lemma noCalls_nil (p : DrawCall → Bool) : noCalls p [] = true := rfl

lemma noCalls_ite (p : DrawCall → Bool) (b : Prop) (inst : Decidable b)
    (t : List DrawCall) (h : noCalls p t = true) :
    noCalls p (if b then t else []) = true := by
  split_ifs
  · exact h
  · rfl

lemma noCalls_ite2 (p : DrawCall → Bool) (b : Prop) (inst : Decidable b)
    (t1 t2 : List DrawCall) (h1 : noCalls p t1 = true)
    (h2 : noCalls p t2 = true) :
    noCalls p (if b then t1 else t2) = true := by
  split_ifs
  · exact h1
  · exact h2

lemma noCalls_drawBarsTrace (p : DrawCall → Bool)
    (hbar : ∀ x y w h r al, p (DrawCall.barRect x y w h r al) = false)
    (hlab : ∀ v, p (DrawCall.barLabel v) = false)
    (hs : p DrawCall.save = false) (hr : p DrawCall.restore = false)
    (layout : Layout) (bl : BarLayout) (a : BarDrawArgs) (base : ℚ) :
    noCalls p (drawBarsTrace layout bl a base) = true := by
  rw [noCalls_eq_true]
  intro c hc
  unfold drawBarsTrace at hc
  by_cases h0 : a.bars = [] ∨ bl.maxValue ≤ 0
  · rw [if_pos h0] at hc
    exact absurd hc (List.not_mem_nil _)
  · rw [if_neg h0] at hc
    simp only [List.mem_append, List.mem_filterMap] at hc
    rcases hc with ⟨b, hb, heq⟩ | hlab2
    · obtain ⟨x, r, al, hcb⟩ := barEventFor_some_shape _ _ _ _ _ _ _ _ _ heq
      rw [hcb]
      exact hbar _ _ _ _ _ _
    · by_cases hg : a.showLabels ∧ 1 / 2 < a.revealProgress
      · rw [if_pos hg] at hlab2
        simp only [List.cons_append, List.mem_cons, List.mem_append,
          List.mem_filterMap, List.mem_singleton, List.not_mem_nil,
          false_or, or_false] at hlab2
        rcases hlab2 with hsv | ⟨b, hb, heq2⟩ | hrs
        · rw [hsv]; exact hs
        · obtain ⟨v, hcv⟩ := labelEventFor_some_shape _ _ _ _ _ _ heq2
          rw [hcv]; exact hlab v
        · rw [hrs]; exact hr
      · rw [if_neg hg] at hlab2
        exact absurd hlab2 (List.not_mem_nil _)

lemma noCalls_barsOverlaySeg (p : DrawCall → Bool)
    (hbar : ∀ x y w h r al, p (DrawCall.barRect x y w h r al) = false)
    (hlab : ∀ v, p (DrawCall.barLabel v) = false)
    (hs : p DrawCall.save = false) (hr : p DrawCall.restore = false)
    (layout : Layout) (cfg : Option BarsCfg) (reveal scrub : ℚ)
    (hx : Option ℚ) :
    noCalls p (barsOverlaySeg layout cfg reveal scrub hx) = true := by
  cases cfg with
  | none => rfl
  | some c =>
    simp only [barsOverlaySeg]
    refine noCalls_ite p _ _ _ (noCalls_ite p _ _ _ ?_)
    rw [noCalls_append, noCalls_append,
      noCalls_drawBarsTrace p hbar hlab hs hr]
    simp [noCalls, hs, hr]

lemma noCalls_barsDefaultSeg (p : DrawCall → Bool)
    (hbar : ∀ x y w h r al, p (DrawCall.barRect x y w h r al) = false)
    (hlab : ∀ v, p (DrawCall.barLabel v) = false)
    (hs : p DrawCall.save = false) (hr : p DrawCall.restore = false)
    (hclip : ∀ x y w h, p (DrawCall.clipRect x y w h) = false)
    (layout : Layout) (cfg : Option BarsCfg) (reveal scrub : ℚ)
    (hx : Option ℚ) :
    noCalls p (barsDefaultSeg layout cfg reveal scrub hx) = true := by
  cases cfg with
  | none => rfl
  | some c =>
    simp only [barsDefaultSeg]
    refine noCalls_ite p _ _ _ (noCalls_ite p _ _ _ ?_)
    rw [noCalls_append, noCalls_append,
      noCalls_drawBarsTrace p hbar hlab hs hr]
    simp [noCalls, hs, hr, hclip]

lemma noCalls_shakeStartSeg (p : DrawCall → Bool)
    (hs : p DrawCall.save = false)
    (htr : ∀ x y, p (DrawCall.translate x y) = false)
    (sa : Option ℚ) (rand1 rand2 : ℚ) :
    noCalls p (shakeStartSeg sa rand1 rand2) = true := by
  cases sa with
  | none => rfl
  | some amp =>
    simp only [shakeStartSeg]
    exact noCalls_ite p _ _ _ (by simp [noCalls, hs, htr])

lemma noCalls_singleChSeg (p : DrawCall → Bool)
    (hch : ∀ x, p (DrawCall.crosshair x) = false)
    (layout : Layout) (hoverX hoverValue hoverTime : Option ℚ)
    (scrubAmount : ℚ) (linePts : List Pt) :
    noCalls p (singleChSeg layout hoverX hoverValue hoverTime scrubAmount
      linePts) = true := by
  cases hoverX <;> cases hoverValue <;> cases hoverTime <;>
    simp only [singleChSeg] <;>
    try rfl
  exact noCalls_ite p _ _ _ (noCalls_ite p _ _ _ (by simp [noCalls, hch]))

/-- Options of the candlestick/line-mode morph composer `drawCandleFrame`,
restricted to the fields that influence the emitted drawing calls. -/
structure CandleOpts where
  candles : List CandlePoint
  displayCandleWidth : ℚ
  oldCandles : List CandlePoint
  oldWidth : ℚ
  morphT : ℚ
  liveCandle : Option CandlePoint
  closePriceCandle : Option CandlePoint
  lineModeProg : ℚ
  chartReveal : ℚ
  showGrid : Bool
  scrubAmount : ℚ
  hoverX : Option ℚ
  hoverValue : Option ℚ
  hoverTime : Option ℚ
  hoveredCandle : Option CandlePoint
  lineVisible : List Pt
  loadingAlpha : ℚ
  showEmptyOverlay : Bool
  barsCfg : Option BarsCfg

/-- The close-price stage of `drawCandleFrame` (source lines 595-626): a
candle-colored close line at `closeAlpha * (1 - lp)` unless `lp >= 0.99`,
and an accent dashed line at `closeAlpha * lp * (1 - scrubAmount * 0.2)`
when `lp > 0.01`, not in full line mode, and the dash y is inside the plot. -/
def candleCloseSeg (layout : Layout) (closeSource : Option CandlePoint)
    (closeAlpha lp scrubAmount : ℚ) (fullLineMode : Bool) : List DrawCall :=
  match closeSource with
  | some cs =>
    if 1 / 100 < closeAlpha then
      (if lp < 99 / 100 then
        [DrawCall.save, DrawCall.closePrice (closeAlpha * (1 - lp)),
          DrawCall.restore]
      else []) ++
      (if 1 / 100 < lp ∧ ¬ fullLineMode then
        let dashY := layout.toY cs.close
        if layout.pad.top ≤ dashY ∧ dashY ≤ layout.h - layout.pad.bottom then
          [DrawCall.save,
            DrawCall.accentDash (closeAlpha * lp * (1 - scrubAmount * (1 / 5))),
            DrawCall.restore]
        else []
      else [])
    else []
  | none => []

/-- Trace of the candlestick/line-mode morph composer `drawCandleFrame`
(source lines 518-768).  `linePts` is the oracle for the realized points of
the external `drawLine` call; when the line call is gated off, the later
dot stage sees no points (the source variable stays undefined). -/
def drawCandleFrameTrace (layout : Layout) (o : CandleOpts)
    (linePts : List Pt) : List DrawCall :=
  let reveal := o.chartReveal
  let fullLineMode := decide (99 / 100 ≤ o.lineModeProg)
  let lp := lpOf o.lineModeProg reveal
  let colorBlend := colorBlendOf o.lineModeProg reveal
  let gridAlpha := revealRamp reveal (1 / 4) (3 / 5)
  let gridSeg :=
    if o.showGrid ∧ 1 / 100 < gridAlpha then
      [DrawCall.save, DrawCall.grid (effAlpha gridAlpha), DrawCall.restore]
    else []
  let barsOver := barsOverlaySeg layout o.barsCfg reveal o.scrubAmount o.hoverX
  let lineCalled := 1 / 100 < lp ∧ 2 ≤ o.lineVisible.length
  let lineSeg :=
    if lineCalled then
      [DrawCall.save,
        DrawCall.line lp (if 1 / 20 < o.scrubAmount then o.hoverX else none)
          (some colorBlend), DrawCall.restore]
    else []
  let linePtsEff := if lineCalled then linePts else []
  let closeAlpha := revealRamp reveal (2 / 5) (4 / 5)
  let closeSource :=
    match o.closePriceCandle with
    | some c => some c
    | none => o.liveCandle
  let closeSeg := candleCloseSeg layout closeSource closeAlpha lp
    o.scrubAmount fullLineMode
  let candleAlpha := reveal * (1 - lp)
  let candleSeg :=
    if 1 / 100 < candleAlpha then
      let ohlcScale := reveal * reveal * (3 - 2 * reveal)
      let revealCandles :=
        if ohlcScale < 99 / 100 then o.candles.map (collapseC ohlcScale)
        else o.candles
      let revealOld :=
        if ohlcScale < 99 / 100 ∧ o.oldCandles ≠ [] then
          o.oldCandles.map (collapseC ohlcScale)
        else o.oldCandles
      [DrawCall.save,
        DrawCall.clipRect (layout.pad.left - 1) layout.pad.top
          (layout.chartW + 2) layout.chartH] ++
      (if 0 ≤ o.morphT ∧ revealOld ≠ [] then
        [DrawCall.candlesticks ((1 - o.morphT) * candleAlpha) revealOld
          o.oldWidth,
          DrawCall.candlesticks (o.morphT * candleAlpha) revealCandles
            o.displayCandleWidth]
      else
        [DrawCall.candlesticks (effAlpha candleAlpha) revealCandles
          o.displayCandleWidth]) ++
      [DrawCall.restore]
    else []
  let barsDef := barsDefaultSeg layout o.barsCfg reveal o.scrubAmount o.hoverX
  let dotSeg :=
    if 1 / 2 < lp ∧ linePtsEff ≠ [] ∧ 3 / 10 < reveal then
      let lastPt := linePtsEff.getLastD (0, 0)
      let dotAlpha := ((lp - 1 / 2) * 2) * ((reveal - 3 / 10) / (7 / 10))
      let showPulse := 4 / 5 < lp ∧ 3 / 5 < reveal
      if 1 / 100 < dotAlpha then
        [DrawCall.save,
          DrawCall.dot lastPt.1 lastPt.2 dotAlpha o.scrubAmount showPulse,
          DrawCall.restore]
      else []
    else []
  let timeAlpha := revealRamp reveal (1 / 4) (3 / 5)
  let axisSeg :=
    if 1 / 100 < timeAlpha then
      [DrawCall.save, DrawCall.timeAxis (effAlpha timeAlpha),
        DrawCall.restore]
    else []
  let fadeSeg := [DrawCall.save, DrawCall.edgeFade, DrawCall.restore]
  let emptySeg :=
    if o.showEmptyOverlay then
      let bgAlpha := 1 - reveal
      if 1 / 100 < bgAlpha then
        let bgEmptyAlpha := (1 - o.loadingAlpha) * bgAlpha
        if 1 / 100 < bgEmptyAlpha then [DrawCall.emptyOverlay bgEmptyAlpha]
        else []
      else []
    else []
  let chSeg :=
    if 7 / 10 < reveal ∧ o.hoveredCandle.isSome ∧ o.hoverX.isSome ∧
        1 / 100 < o.scrubAmount then
      if 1 / 2 < o.lineModeProg then [DrawCall.lineModeCrosshair]
      else [DrawCall.candleCrosshair]
    else []
  gridSeg ++ barsOver ++ lineSeg ++ closeSeg ++ candleSeg ++ barsDef ++
    dotSeg ++ axisSeg ++ fadeSeg ++ emptySeg ++ chSeg

lemma noCalls_candleCloseSeg (p : DrawCall → Bool)
    (hcp : ∀ x, p (DrawCall.closePrice x) = false)
    (had : ∀ x, p (DrawCall.accentDash x) = false)
    (hs : p DrawCall.save = false) (hr : p DrawCall.restore = false)
    (layout : Layout) (cs : Option CandlePoint)
    (closeAlpha lp scrubAmount : ℚ) (flm : Bool) :
    noCalls p (candleCloseSeg layout cs closeAlpha lp scrubAmount flm) =
      true := by
  cases cs with
  | none => rfl
  | some c =>
    simp only [candleCloseSeg]
    refine noCalls_ite p _ _ _ ?_
    rw [noCalls_append]
    have h1 : noCalls p (if lp < 99 / 100 then
        [DrawCall.save, DrawCall.closePrice (closeAlpha * (1 - lp)),
          DrawCall.restore] else []) = true :=
      noCalls_ite p _ _ _ (by simp [noCalls, hs, hr, hcp])
    have h2 : noCalls p (if 1 / 100 < lp ∧ ¬ flm then
        (if layout.pad.top ≤ layout.toY c.close ∧
            layout.toY c.close ≤ layout.h - layout.pad.bottom then
          [DrawCall.save,
            DrawCall.accentDash (closeAlpha * lp * (1 - scrubAmount * (1 / 5))),
            DrawCall.restore]
        else []) else []) = true :=
      noCalls_ite p _ _ _ (noCalls_ite p _ _ _ (by simp [noCalls, hs, hr, had]))
    rw [h1, h2]
    rfl

/-- Concrete candle composer input falsifying C6 as stated: `lineModeProg =
1`, `reveal = 4/5 > 0.7`, `scrubAmount = 1 > 0.01`, a hovered candle exists,
but the hover x is null. -/
def candleOptsC6 : CandleOpts :=
  ⟨[], 4, [], 4, -1, none, none, 1, 4 / 5, false, 1, none, none, none,
    some ⟨0, 1, 2, 0, 1⟩, [], 0, false, none⟩

/-- C6 counterexample: with `lineModeProg = 1`, `reveal = 4/5 > 0.7`, a
hovered candle present and `scrubAmount = 1 > 0.01` but a null hover x,
`drawCandleFrame` emits no crosshair at all — the code's crosshair gate
additionally requires `hoverX !== null`, which the claim omits. -/
theorem lineMode_one_counterexample :
    DrawCall.lineModeCrosshair ∉
      drawCandleFrameTrace sampleLayout candleOptsC6 [] := by
  norm_num [drawCandleFrameTrace, candleOptsC6, sampleLayout, lpOf,
    revealLineOf, colorBlendOf, candleCloseSeg, barsOverlaySeg,
    barsDefaultSeg, revealRamp, effAlpha, max_def, min_def]
  simp

/-- C6 amended: in the candle composer with `lineModeProg = 1` and reveal in
[0,1], `lp` is forced to 1, `colorBlend = 1`, the candle body alpha
`reveal * (1 - lp)` is 0 and no candlestick draw call is made; the crosshair
stage never selects `drawCandleCrosshair`, and it emits
`drawLineModeCrosshair` once `reveal > 0.7`, a hovered candle exists, the
hover x is non-null, and `scrubAmount > 0.01`. -/
theorem lineMode_one_scenario (layout : Layout) (o : CandleOpts)
    (linePts : List Pt) (hlm : o.lineModeProg = 1) (hr0 : 0 ≤ o.chartReveal)
    (hr1 : o.chartReveal ≤ 1) :
    lpOf o.lineModeProg o.chartReveal = 1 ∧
    colorBlendOf o.lineModeProg o.chartReveal = 1 ∧
    o.chartReveal * (1 - lpOf o.lineModeProg o.chartReveal) = 0 ∧
    noCalls isCandlesticks (drawCandleFrameTrace layout o linePts) = true ∧
    noCalls isCandleCrosshair (drawCandleFrameTrace layout o linePts) = true ∧
    (7 / 10 < o.chartReveal → o.hoveredCandle.isSome = true →
      o.hoverX.isSome = true → 1 / 100 < o.scrubAmount →
      DrawCall.lineModeCrosshair ∈ drawCandleFrameTrace layout o linePts) := by
  have hlp : lpOf 1 o.chartReveal = 1 := by
    unfold lpOf revealLineOf
    rw [if_pos (by norm_num : (99 : ℚ) / 100 ≤ 1)]
    exact max_eq_left (by linarith)
  have hlp0 : lpOf o.lineModeProg o.chartReveal = 1 := by rw [hlm]; exact hlp
  refine ⟨hlp0, ?_, ?_, ?_, ?_, ?_⟩
  · rw [hlm]
    unfold colorBlendOf
    rw [hlp, if_pos (by norm_num)]
    norm_num
  · rw [hlp0]; ring
  · simp only [drawCandleFrameTrace, hlm, hlp, sub_self, mul_zero]
    rw [if_neg (by norm_num : ¬ ((1 : ℚ) / 100 < (0 : ℚ)))]
    simp only [noCalls_append, Bool.and_eq_true]
    refine ⟨⟨⟨⟨⟨⟨⟨⟨⟨⟨?_, ?_⟩, ?_⟩, ?_⟩, ?_⟩, ?_⟩, ?_⟩, ?_⟩, ?_⟩, ?_⟩, ?_⟩
    · exact noCalls_ite _ _ _ _ rfl
    · exact noCalls_barsOverlaySeg _ (fun _ _ _ _ _ _ => rfl) (fun _ => rfl)
        rfl rfl _ _ _ _ _
    · exact noCalls_ite _ _ _ _ rfl
    · exact noCalls_candleCloseSeg _ (fun _ => rfl) (fun _ => rfl) rfl rfl
        _ _ _ _ _ _
    · exact rfl
    · exact noCalls_barsDefaultSeg _ (fun _ _ _ _ _ _ => rfl) (fun _ => rfl)
        rfl rfl (fun _ _ _ _ => rfl) _ _ _ _ _
    · exact noCalls_ite _ _ _ _ (noCalls_ite _ _ _ _ rfl)
    · exact noCalls_ite _ _ _ _ rfl
    · exact rfl
    · exact noCalls_ite _ _ _ _ (noCalls_ite _ _ _ _ (noCalls_ite _ _ _ _ rfl))
    · exact noCalls_ite _ _ _ _ (noCalls_ite2 _ _ _ _ _ rfl rfl)
  · simp only [drawCandleFrameTrace, hlm, hlp, sub_self, mul_zero]
    rw [if_neg (by norm_num : ¬ ((1 : ℚ) / 100 < (0 : ℚ)))]
    simp only [noCalls_append, Bool.and_eq_true]
    refine ⟨⟨⟨⟨⟨⟨⟨⟨⟨⟨?_, ?_⟩, ?_⟩, ?_⟩, ?_⟩, ?_⟩, ?_⟩, ?_⟩, ?_⟩, ?_⟩, ?_⟩
    · exact noCalls_ite _ _ _ _ rfl
    · exact noCalls_barsOverlaySeg _ (fun _ _ _ _ _ _ => rfl) (fun _ => rfl)
        rfl rfl _ _ _ _ _
    · exact noCalls_ite _ _ _ _ rfl
    · exact noCalls_candleCloseSeg _ (fun _ => rfl) (fun _ => rfl) rfl rfl
        _ _ _ _ _ _
    · exact rfl
    · exact noCalls_barsDefaultSeg _ (fun _ _ _ _ _ _ => rfl) (fun _ => rfl)
        rfl rfl (fun _ _ _ _ => rfl) _ _ _ _ _
    · exact noCalls_ite _ _ _ _ (noCalls_ite _ _ _ _ rfl)
    · exact noCalls_ite _ _ _ _ rfl
    · exact rfl
    · exact noCalls_ite _ _ _ _ (noCalls_ite _ _ _ _ (noCalls_ite _ _ _ _ rfl))
    · exact noCalls_ite _ _ _ _
        (by rw [if_pos (by norm_num : (1 : ℚ) / 2 < 1)]; rfl)
  · intro hg1 hg2 hg3 hg4
    simp only [drawCandleFrameTrace, hlm, hlp]
    rw [if_pos (show (7 : ℚ) / 10 < o.chartReveal ∧
        o.hoveredCandle.isSome = true ∧ o.hoverX.isSome = true ∧
        1 / 100 < o.scrubAmount from ⟨hg1, hg2, hg3, hg4⟩),
      if_pos (by norm_num : (1 : ℚ) / 2 < 1)]
    simp [List.mem_append]

/-- Concrete candle composer input for the C6 witness: like `candleOptsC6`
but with a non-null hover x. -/
def candleOptsW : CandleOpts :=
  ⟨[], 4, [], 4, -1, none, none, 1, 4 / 5, false, 1, some 50, none, none,
    some ⟨0, 1, 2, 0, 1⟩, [], 0, false, none⟩

/-- Witness for C6 amended at the concrete input with hover x = 50. -/
theorem lineMode_one_scenario_witness :
    (candleOptsW.lineModeProg = 1 ∧ (0 : ℚ) ≤ candleOptsW.chartReveal ∧
      candleOptsW.chartReveal ≤ 1 ∧ 7 / 10 < candleOptsW.chartReveal ∧
      candleOptsW.hoveredCandle.isSome = true ∧
      candleOptsW.hoverX.isSome = true ∧
      1 / 100 < candleOptsW.scrubAmount) ∧
    DrawCall.lineModeCrosshair ∈
      drawCandleFrameTrace sampleLayout candleOptsW [] := by
  refine ⟨⟨by norm_num [candleOptsW], by norm_num [candleOptsW],
    by norm_num [candleOptsW], by norm_num [candleOptsW],
    by simp [candleOptsW], by simp [candleOptsW],
    by norm_num [candleOptsW]⟩, ?_⟩
  exact (lineMode_one_scenario sampleLayout candleOptsW []
      (by norm_num [candleOptsW]) (by norm_num [candleOptsW])
      (by norm_num [candleOptsW])).2.2.2.2.2
    (by norm_num [candleOptsW]) (by simp [candleOptsW])
    (by simp [candleOptsW]) (by norm_num [candleOptsW])

/-- A `drawFrame` input with `chartReveal = 0` and everything optional off. -/
def frameOptsC3 : FrameOpts :=
  ⟨false, false, false, false, false, false, none, none, none, 0, none, 0, 0,
    none⟩

/-- C3 counterexample: at `chartReveal = 0`, `drawFrame` still calls
`drawLine` — the call at source line 158 is unconditional — so the claim
that no call to `drawLine` is made at reveal 0 is false. -/
theorem reveal_zero_counterexample :
    DrawCall.line 1 none none ∈
      drawFrameTrace sampleLayout frameOptsC3 0 0 [] := by
  norm_num [drawFrameTrace, frameOptsC3, sampleLayout, shakeStartSeg,
    singleChSeg, shakeXOf, barsOverlaySeg, barsDefaultSeg, revealRamp_zero_a,
    revealRamp_zero_b, revealRamp_zero_d, effAlpha]

lemma noCalls_ite_neg (p : DrawCall → Bool) (b : Prop) (inst : Decidable b)
    (t : List DrawCall) (hb : ¬ b) :
    noCalls p (if b then t else []) = true := by
  rw [if_neg hb]; rfl

/-- C3 amended: at `chartReveal = 0` neither composer emits any grid, dot or
candlestick draw call, and the always-on left-edge fade is still applied;
`drawLine` is still invoked (unconditionally in `drawFrame`, and whenever
the morph line is present in `drawCandleFrame`), its reveal-0 appearance
being handled inside the external line module. -/
theorem reveal_zero_no_layer_draws (L1 : Layout) (o1 : FrameOpts)
    (r1 r2 : ℚ) (lpts : List Pt) (h1 : o1.chartReveal = 0)
    (L2 : Layout) (o2 : CandleOpts) (clpts : List Pt)
    (h2 : o2.chartReveal = 0) :
    (noCalls isGrid (drawFrameTrace L1 o1 r1 r2 lpts) = true ∧
     noCalls isDot (drawFrameTrace L1 o1 r1 r2 lpts) = true ∧
     DrawCall.edgeFade ∈ drawFrameTrace L1 o1 r1 r2 lpts) ∧
    (noCalls isGrid (drawCandleFrameTrace L2 o2 clpts) = true ∧
     noCalls isDot (drawCandleFrameTrace L2 o2 clpts) = true ∧
     noCalls isCandlesticks (drawCandleFrameTrace L2 o2 clpts) = true ∧
     DrawCall.edgeFade ∈ drawCandleFrameTrace L2 o2 clpts) := by
  have hga : (if (0 : ℚ) < 1 then revealRamp (0 : ℚ) (15 / 100) (7 / 10)
      else 1) = 0 := by
    rw [if_pos (by norm_num)]
    exact revealRamp_zero (by norm_num) (by norm_num)
  constructor
  · refine ⟨?_, ?_, ?_⟩
    · simp only [drawFrameTrace, h1, noCalls_append, Bool.and_eq_true]
      refine ⟨⟨⟨⟨⟨⟨⟨⟨⟨⟨⟨?_, ?_⟩, ?_⟩, ?_⟩, ?_⟩, ?_⟩, ?_⟩, ?_⟩, ?_⟩, ?_⟩,
        ?_⟩, ?_⟩
      · exact noCalls_shakeStartSeg _ rfl (fun _ _ => rfl) _ _ _
      · exact noCalls_ite _ _ _ _ rfl
      · exact noCalls_ite _ _ _ _
          (noCalls_ite_neg _ _ _ _ (by rw [hga]; norm_num))
      · exact noCalls_ite _ _ _ _ rfl
      · exact noCalls_barsOverlaySeg _ (fun _ _ _ _ _ _ => rfl)
          (fun _ => rfl) rfl rfl _ _ _ _ _
      · exact rfl
      · exact noCalls_ite _ _ _ _ rfl
      · refine noCalls_ite _ _ _ _ ?_
        simp only [noCalls_append, Bool.and_eq_true]
        exact ⟨⟨noCalls_ite _ _ _ _ rfl,
          noCalls_ite _ _ _ _ (noCalls_ite _ _ _ _ rfl)⟩,
          noCalls_ite _ _ _ _ rfl⟩
      · exact noCalls_barsDefaultSeg _ (fun _ _ _ _ _ _ => rfl)
          (fun _ => rfl) rfl rfl (fun _ _ _ _ => rfl) _ _ _ _ _
      · exact rfl
      · exact noCalls_singleChSeg _ (fun _ => rfl) _ _ _ _ _ _
      · exact noCalls_ite _ _ _ _ rfl
    · simp only [drawFrameTrace, h1, noCalls_append, Bool.and_eq_true]
      refine ⟨⟨⟨⟨⟨⟨⟨⟨⟨⟨⟨?_, ?_⟩, ?_⟩, ?_⟩, ?_⟩, ?_⟩, ?_⟩, ?_⟩, ?_⟩, ?_⟩,
        ?_⟩, ?_⟩
      · exact noCalls_shakeStartSeg _ rfl (fun _ _ => rfl) _ _ _
      · exact noCalls_ite _ _ _ _ rfl
      · exact noCalls_ite _ _ _ _ (noCalls_ite _ _ _ _ rfl)
      · exact noCalls_ite _ _ _ _ rfl
      · exact noCalls_barsOverlaySeg _ (fun _ _ _ _ _ _ => rfl)
          (fun _ => rfl) rfl rfl _ _ _ _ _
      · exact rfl
      · exact noCalls_ite _ _ _ _ rfl
      · refine noCalls_ite _ _ _ _ ?_
        simp only [noCalls_append, Bool.and_eq_true]
        refine ⟨⟨?_, noCalls_ite _ _ _ _ (noCalls_ite _ _ _ _ rfl)⟩,
          noCalls_ite _ _ _ _ rfl⟩
        exact noCalls_ite_neg _ _ _ _
          (by rw [if_pos (by norm_num : (0 : ℚ) < 3 / 10)]; norm_num)
      · exact noCalls_barsDefaultSeg _ (fun _ _ _ _ _ _ => rfl)
          (fun _ => rfl) rfl rfl (fun _ _ _ _ => rfl) _ _ _ _ _
      · exact rfl
      · exact noCalls_singleChSeg _ (fun _ => rfl) _ _ _ _ _ _
      · exact noCalls_ite _ _ _ _ rfl
    · simp only [drawFrameTrace]
      simp [List.mem_append]
  · have hcga : revealRamp (0 : ℚ) (1 / 4) (3 / 5) = 0 := revealRamp_zero_e
    refine ⟨?_, ?_, ?_, ?_⟩
    · simp only [drawCandleFrameTrace, h2, noCalls_append, Bool.and_eq_true]
      refine ⟨⟨⟨⟨⟨⟨⟨⟨⟨⟨?_, ?_⟩, ?_⟩, ?_⟩, ?_⟩, ?_⟩, ?_⟩, ?_⟩, ?_⟩, ?_⟩, ?_⟩
      · exact noCalls_ite_neg _ _ _ _ (by rw [hcga]; norm_num)
      · exact noCalls_barsOverlaySeg _ (fun _ _ _ _ _ _ => rfl)
          (fun _ => rfl) rfl rfl _ _ _ _ _
      · exact noCalls_ite _ _ _ _ rfl
      · exact noCalls_candleCloseSeg _ (fun _ => rfl) (fun _ => rfl) rfl rfl
          _ _ _ _ _ _
      · refine noCalls_ite _ _ _ _ ?_
        simp only [noCalls_append, Bool.and_eq_true]
        exact ⟨⟨rfl, noCalls_ite2 _ _ _ _ _ rfl rfl⟩, rfl⟩
      · exact noCalls_barsDefaultSeg _ (fun _ _ _ _ _ _ => rfl)
          (fun _ => rfl) rfl rfl (fun _ _ _ _ => rfl) _ _ _ _ _
      · exact noCalls_ite _ _ _ _ (noCalls_ite _ _ _ _ rfl)
      · exact noCalls_ite _ _ _ _ rfl
      · exact rfl
      · exact noCalls_ite _ _ _ _ (noCalls_ite _ _ _ _ (noCalls_ite _ _ _ _
          rfl))
      · exact noCalls_ite _ _ _ _ (noCalls_ite2 _ _ _ _ _ rfl rfl)
    · simp only [drawCandleFrameTrace, h2, noCalls_append, Bool.and_eq_true]
      refine ⟨⟨⟨⟨⟨⟨⟨⟨⟨⟨?_, ?_⟩, ?_⟩, ?_⟩, ?_⟩, ?_⟩, ?_⟩, ?_⟩, ?_⟩, ?_⟩, ?_⟩
      · exact noCalls_ite _ _ _ _ rfl
      · exact noCalls_barsOverlaySeg _ (fun _ _ _ _ _ _ => rfl)
          (fun _ => rfl) rfl rfl _ _ _ _ _
      · exact noCalls_ite _ _ _ _ rfl
      · exact noCalls_candleCloseSeg _ (fun _ => rfl) (fun _ => rfl) rfl rfl
          _ _ _ _ _ _
      · refine noCalls_ite _ _ _ _ ?_
        simp only [noCalls_append, Bool.and_eq_true]
        exact ⟨⟨rfl, noCalls_ite2 _ _ _ _ _ rfl rfl⟩, rfl⟩
      · exact noCalls_barsDefaultSeg _ (fun _ _ _ _ _ _ => rfl)
          (fun _ => rfl) rfl rfl (fun _ _ _ _ => rfl) _ _ _ _ _
      · exact noCalls_ite_neg _ _ _ _ (by norm_num)
      · exact noCalls_ite _ _ _ _ rfl
      · exact rfl
      · exact noCalls_ite _ _ _ _ (noCalls_ite _ _ _ _ (noCalls_ite _ _ _ _
          rfl))
      · exact noCalls_ite _ _ _ _ (noCalls_ite2 _ _ _ _ _ rfl rfl)
    · simp only [drawCandleFrameTrace, h2, zero_mul, noCalls_append,
        Bool.and_eq_true]
      refine ⟨⟨⟨⟨⟨⟨⟨⟨⟨⟨?_, ?_⟩, ?_⟩, ?_⟩, ?_⟩, ?_⟩, ?_⟩, ?_⟩, ?_⟩, ?_⟩, ?_⟩
      · exact noCalls_ite _ _ _ _ rfl
      · exact noCalls_barsOverlaySeg _ (fun _ _ _ _ _ _ => rfl)
          (fun _ => rfl) rfl rfl _ _ _ _ _
      · exact noCalls_ite _ _ _ _ rfl
      · exact noCalls_candleCloseSeg _ (fun _ => rfl) (fun _ => rfl) rfl rfl
          _ _ _ _ _ _
      · exact noCalls_ite_neg _ _ _ _ (by norm_num)
      · exact noCalls_barsDefaultSeg _ (fun _ _ _ _ _ _ => rfl)
          (fun _ => rfl) rfl rfl (fun _ _ _ _ => rfl) _ _ _ _ _
      · exact noCalls_ite _ _ _ _ (noCalls_ite _ _ _ _ rfl)
      · exact noCalls_ite _ _ _ _ rfl
      · exact rfl
      · exact noCalls_ite _ _ _ _ (noCalls_ite _ _ _ _ (noCalls_ite _ _ _ _
          rfl))
      · exact noCalls_ite _ _ _ _ (noCalls_ite2 _ _ _ _ _ rfl rfl)
    · simp only [drawCandleFrameTrace]
      simp [List.mem_append]

/-- A candle composer input with `chartReveal = 0`. -/
def candleOptsC3 : CandleOpts :=
  ⟨[], 4, [], 4, -1, none, none, 0, 0, false, 0, none, none, none, none, [],
    0, false, none⟩

/-- Witness for C3 amended at the two concrete reveal-0 inputs. -/
theorem reveal_zero_no_layer_draws_witness :
    (frameOptsC3.chartReveal = 0 ∧ candleOptsC3.chartReveal = 0) ∧
    ((noCalls isGrid (drawFrameTrace sampleLayout frameOptsC3 0 0 []) = true ∧
      noCalls isDot (drawFrameTrace sampleLayout frameOptsC3 0 0 []) = true ∧
      DrawCall.edgeFade ∈ drawFrameTrace sampleLayout frameOptsC3 0 0 []) ∧
     (noCalls isGrid (drawCandleFrameTrace sampleLayout candleOptsC3 []) =
        true ∧
      noCalls isDot (drawCandleFrameTrace sampleLayout candleOptsC3 []) =
        true ∧
      noCalls isCandlesticks
        (drawCandleFrameTrace sampleLayout candleOptsC3 []) = true ∧
      DrawCall.edgeFade ∈ drawCandleFrameTrace sampleLayout candleOptsC3 [])) :=
  ⟨⟨rfl, rfl⟩,
    reveal_zero_no_layer_draws sampleLayout frameOptsC3 0 0 [] rfl
      sampleLayout candleOptsC3 [] rfl⟩

end Liveline
